import Mathlib

/-!
Verification of the agent-orchestration core of the data-migration
repository (src/agents/openai_agents.py) against its specification.

The Python module is shallowly embedded: every function relevant to the
claims is translated into an executable Lean definition, faithful to the
source.  DataFrames are modelled by the per-column data the functions
actually read (column name, pandas dtype class, null count, observed
integer range, string lengths); Python dicts are modelled as association
lists with dict insertion semantics (`dictInsert` updates an existing key
in place, otherwise appends, preserving Python 3.7+ insertion order);
regular-expression checks over generated code are implemented as direct
scanners over character lists.  External effects that the claims do not
depend on (the LLM collaborator, Python `compile()` syntax checking, and
one regex extraction of SQL type tokens) enter as explicit oracle
parameters, so every theorem is quantified over their behaviour.
-/

namespace DataMigration

/-! ## String utilities mirroring the Python primitives used by the source -/

/-- Python `str.lower()` restricted to the ASCII identifiers this
repository manipulates, as a character list. -/
def lowerChars (s : String) : List Char := s.data.map Char.toLower

/-- Python `str.upper()` as a character list. -/
def upperChars (s : String) : List Char := s.data.map Char.toUpper

/-- Python `needle in hay` for strings: substring containment. -/
def hasSub (hay needle : List Char) : Bool :=
  match hay with
  | [] => needle.isEmpty
  | _ :: tl => needle.isPrefixOf hay || hasSub tl needle

/-- Python `k in col.lower()` for a lowercase literal `k`. -/
def inLower (needle : String) (col : String) : Bool :=
  hasSub (lowerChars col) needle.data

/-- Python `col.lower().endswith(suffix)` for a lowercase literal suffix. -/
def endsLower (suffix : String) (col : String) : Bool :=
  suffix.data.isSuffixOf (lowerChars col)

/-- Python `s.startswith(p)` on the lowercased string. -/
def startsLower (p : String) (s : String) : Bool :=
  p.data.isPrefixOf (lowerChars s)

/-- Python `s.replace(old, '')` removing every occurrence of a non-empty
substring, scanning left to right (the semantics of `str.replace`). -/
def removeSubFuel (needle : List Char) : Nat → List Char → List Char
  | _, [] => []
  | 0, l => l
  | fuel + 1, c :: tl =>
    if needle ≠ [] ∧ needle.isPrefixOf (c :: tl) then
      removeSubFuel needle fuel ((c :: tl).drop needle.length)
    else
      c :: removeSubFuel needle fuel tl

def removeSub (needle : List Char) (l : List Char) : List Char :=
  removeSubFuel needle l.length l

/-- Python `str.title()`: a cased character is uppercased when the
preceding character is not cased, lowercased otherwise (ASCII letters are
the cased characters occurring here). -/
def pyTitleAux (prevAlpha : Bool) : List Char → List Char
  | [] => []
  | c :: tl =>
    (if c.isAlpha then (if prevAlpha then c.toLower else c.toUpper) else c)
      :: pyTitleAux c.isAlpha tl

/-- Python `str.title()`. -/
def pyTitle (l : List Char) : List Char := pyTitleAux false l

/-- The whitespace class of Python's `str.strip()` and of the regex `\s`. -/
def isPyWs (c : Char) : Bool :=
  c = ' ' || c = '\t' || c = '\n' || c = '\r' || c = '\x0b' || c = '\x0c'

/-- Python `str.strip()` on a character list. -/
def pyStrip (l : List Char) : List Char :=
  ((l.dropWhile isPyWs).reverse.dropWhile isPyWs).reverse

/-! ## Association lists with Python dict semantics -/

/-- Python `d[k] = v`: update the existing key in place (preserving its
position), otherwise append at the end. -/
def dictInsert {α : Type} (d : List (String × α)) (k : String) (v : α) :
    List (String × α) :=
  match d with
  | [] => [(k, v)]
  | (k0, v0) :: rest =>
    if k0 = k then (k, v) :: rest else (k0, v0) :: dictInsert rest k v

/-- Python `d.get(k)`. -/
def dictFind {α : Type} (d : List (String × α)) (k : String) : Option α :=
  match d with
  | [] => none
  | (k0, v0) :: rest => if k0 = k then some v0 else dictFind rest k

/-- The keys of an association list, in order. -/
def dictKeys {α : Type} (d : List (String × α)) : List String := d.map Prod.fst

/-! ## Data model: sampled DataFrame columns and type decisions -/

/-- What `_create_fallback_datatypes` reads from one DataFrame column:
its name, the pandas dtype string, the null count, whether any non-null
value exists (`df[col].notna().any()`), the observed integer range (only
meaningful for integer dtypes with a non-null value) and the maximal
stringified length (only meaningful for the string branch). -/
structure PdColumn where
  name : String
  dtype : String
  nullCount : Nat
  hasNonNull : Bool
  minVal : Int
  maxVal : Int
  maxStrLen : Nat
deriving DecidableEq, Repr

/-- One per-column decision of Agent 2's fallback (the `reasoning` string
of the source, which no claim mentions, is omitted). -/
structure TypeDecision where
  sql_type : String
  adf_type : String
  nullable : Bool
deriving DecidableEq, Repr

/-- The body of the per-column loop of `_create_fallback_datatypes`
(src/agents/openai_agents.py:1782-1857).  The source converts the integer
extrema through `float(...)` before comparing with 2147483647; the
conversion is exact on every value whose comparison with that bound is at
stake, so the comparison is taken on integers here. -/
def fallbackDatatypeFor (c : PdColumn) : TypeDecision :=
  let nullable := decide (0 < c.nullCount)
  if hasSub c.dtype.data ("int".data) then
    if c.hasNonNull then
      if 2147483647 < c.maxVal.natAbs ∨ 2147483647 < c.minVal.natAbs then
        ⟨"BIGINT", "long", nullable⟩
      else
        ⟨"INT", "integer", nullable⟩
    else
      ⟨"INT", "integer", nullable⟩
  else if hasSub c.dtype.data ("float".data) then
    ⟨"DECIMAL(18,2)", "decimal(18,2)", nullable⟩
  else if hasSub c.dtype.data ("datetime".data) || hasSub c.dtype.data ("date".data) then
    ⟨"DATETIME", "timestamp", nullable⟩
  else if hasSub c.dtype.data ("bool".data) then
    ⟨"BIT", "boolean", nullable⟩
  else
    if c.hasNonNull then
      if 4000 < c.maxStrLen then
        ⟨"NVARCHAR(MAX)", "string", nullable⟩
      else if 255 < c.maxStrLen then
        ⟨"NVARCHAR(" ++ toString (min (c.maxStrLen * 2) 4000) ++ ")", "string", nullable⟩
      else
        ⟨"NVARCHAR(" ++ toString (max (c.maxStrLen * 2) 50) ++ ")", "string", nullable⟩
    else
      ⟨"NVARCHAR(255)", "string", nullable⟩

/-- `_create_fallback_datatypes` (src/agents/openai_agents.py:1763-1873):
one decision per column, collected into the `columns` dict in column
order.  The `agent1_analysis` argument only feeds the omitted `reasoning`
string, and the exception handlers are dead in this effect-free model. -/
def create_fallback_datatypes (cols : List PdColumn) : List (String × TypeDecision) :=
  cols.foldl (fun acc c => dictInsert acc c.name (fallbackDatatypeFor c)) []

/-- Modelled from the claim's words, for comparison with the source: the
canonical type C6 prescribes.  "long iff the observed numeric range
exceeds 32-bit signed bounds" is read with the signed bounds
[-2^31, 2^31 - 1]. -/
def claimC6AdfType (c : PdColumn) : String :=
  if hasSub c.dtype.data ("int".data) then
    if c.hasNonNull ∧ (2147483647 < c.maxVal ∨ c.minVal < -2147483648) then "long"
    else "integer"
  else if hasSub c.dtype.data ("float".data) then "decimal(18,2)"
  else if hasSub c.dtype.data ("datetime".data) || hasSub c.dtype.data ("date".data) then
    "timestamp"
  else if hasSub c.dtype.data ("bool".data) then "boolean"
  else "string"

/-- The amended canonical-type map: as the claim, except that the
long/integer cut is on absolute value exceeding 2^31 - 1 (so the valid
32-bit value -2^31 is also mapped to long). -/
def claimC6AdfTypeAmended (c : PdColumn) : String :=
  if hasSub c.dtype.data ("int".data) then
    if c.hasNonNull ∧ (2147483647 < c.maxVal.natAbs ∨ 2147483647 < c.minVal.natAbs) then
      "long"
    else "integer"
  else if hasSub c.dtype.data ("float".data) then "decimal(18,2)"
  else if hasSub c.dtype.data ("datetime".data) || hasSub c.dtype.data ("date".data) then
    "timestamp"
  else if hasSub c.dtype.data ("bool".data) then "boolean"
  else "string"

/-! ## Agent 1 fallback: `_create_fallback_analysis` -/

/-- The pandas dtype class a column of the loaded DataFrame falls into,
as `_create_fallback_analysis` distinguishes them:
`select_dtypes(include=['number'])` (numeric), `include=['object']`
(text), anything else (booleans, datetimes, ...). -/
inductive PdKind
  | num
  | obj
  | other
deriving DecidableEq, Repr

/-- A DataFrame column as `_create_fallback_analysis` sees it. -/
structure DfCol where
  name : String
  kind : PdKind
deriving DecidableEq, Repr

/-- One proposed dimension: its columns and primary key. -/
structure DimInfo where
  columns : List String
  primary_key : String
deriving DecidableEq, Repr

/-- The result shape of `_create_fallback_analysis` (the constant
`reasoning` string is omitted). -/
structure FallbackAnalysis where
  fact_columns : List String
  dimensions : List (String × DimInfo)
  foreign_keys : List (String × String)
deriving DecidableEq, Repr

/-- `id_columns` (src/agents/openai_agents.py:1385): columns whose
lowercased name contains `id` and ends with `_id`. -/
def idColumns (df : List DfCol) : List String :=
  (df.map DfCol.name).filter fun col => inLower "id" col && endsLower "_id" col

/-- `numeric_columns` (line 1386): numeric-dtype columns not in
`id_columns`. -/
def numericColumns (df : List DfCol) : List String :=
  ((df.filter fun c => c.kind = PdKind.num).map DfCol.name).filter
    fun col => !(idColumns df).contains col

/-- `text_columns` (line 1387): object-dtype columns. -/
def textColumns (df : List DfCol) : List String :=
  (df.filter fun c => c.kind = PdKind.obj).map DfCol.name

/-- The fixed `dimension_keywords` table (lines 1393-1401), in dict
insertion order. -/
def dimension_keywords : List (String × List String) :=
  [("DimPatient", ["patient"]),
   ("DimDoctor", ["doctor", "physician"]),
   ("DimHospital", ["hospital", "clinic", "facility"]),
   ("DimDate", ["date", "time"]),
   ("DimMedication", ["medication", "drug", "medicine"]),
   ("DimLocation", ["location", "address", "city", "state", "zip"]),
   ("DimDepartment", ["department", "division"])]

/-- The keyword-matching loop over `dimension_keywords` (lines
1403-1408): for each entry with at least one matching text column, a
dimension whose primary key is the first keyword-matching id column, or
the first matching text column when no id column matches. -/
def keywordDims (text_columns id_columns : List String) :
    List (String × List String) → List (String × DimInfo) → List (String × DimInfo)
  | [], dims => dims
  | (dim_name, keywords) :: rest, dims =>
    let matching := text_columns.filter fun col =>
      keywords.any fun k => inLower k col
    match matching with
    | [] => keywordDims text_columns id_columns rest dims
    | m0 :: _ =>
      let pk_candidates := id_columns.filter fun col =>
        keywords.any fun k => inLower k col
      let primary_key := match pk_candidates with
        | [] => m0
        | p0 :: _ => p0
      keywordDims text_columns id_columns rest
        (dictInsert dims dim_name ⟨matching, primary_key⟩)

/-- The cleaned dimension-name stem the source derives from an id
column: `id_col.replace('_ID', '').replace('_', '').title()`
(lines 1412 and 1431). -/
def dimStem (id_col : String) : List Char :=
  pyTitle ((removeSub ("_ID".data) id_col.data).filter fun c => c ≠ '_')

/-- The name `f"Dim{...}"` built from an id column. -/
def dimNameOfId (id_col : String) : String :=
  "Dim" ++ String.mk (dimStem id_col)

/-- The second dimension-synthesis pass (lines 1410-1415): when the
keyword table matched nothing, build one dimension per id column (first
five), from the id column plus up to ten text columns containing the
cleaned id stem. -/
def idDims (text_columns : List String) :
    List String → List (String × DimInfo) → List (String × DimInfo)
  | [], dims => dims
  | id_col :: rest, dims =>
    let stem := (removeSub ("_ID".data) id_col.data).map Char.toLower
    let related := text_columns.filter fun col => hasSub (lowerChars col) stem
    match related with
    | [] => idDims text_columns rest dims
    | _ :: _ =>
      idDims text_columns rest
        (dictInsert dims (dimNameOfId id_col) ⟨id_col :: related.take 10, id_col⟩)

/-- The foreign-key loop (lines 1417-1421): one entry
`primary_key ↦ dimension name` per dimension whose primary key occurs in
the DataFrame's column list. -/
def foreignKeysOf (columns : List String) :
    List (String × DimInfo) → List (String × String) → List (String × String)
  | [], fk => fk
  | (dim_name, dim_info) :: rest, fk =>
    if columns.contains dim_info.primary_key then
      foreignKeysOf columns rest (dictInsert fk dim_info.primary_key dim_name)
    else
      foreignKeysOf columns rest fk

/-- The dimension dict after the keyword pass (lines 1403-1408) and the
id-column synthesis pass (lines 1410-1415). -/
def analysisDims2 (df : List DfCol) : List (String × DimInfo) :=
  let dims1 := keywordDims (textColumns df) (idColumns df) dimension_keywords []
  if dims1.isEmpty && !(idColumns df).isEmpty then
    idDims (textColumns df) ((idColumns df).take 5) dims1
  else dims1

/-- The dimension dict after the last-resort synthesis pass (lines
1429-1434), which fires when the first two passes produced nothing but an
id column exists: one dimension from the first id column plus the first
ten text columns. -/
def analysisDims3 (df : List DfCol) : List (String × DimInfo) :=
  let dims2 := analysisDims2 df
  if dims2.isEmpty && !(idColumns df).isEmpty then
    match idColumns df with
    | [] => dims2
    | first_id :: _ =>
      dictInsert dims2 (dimNameOfId first_id)
        ⟨first_id :: (textColumns df).take 10, first_id⟩
  else dims2

/-- The foreign-key dict: the loop of lines 1417-1421 over the first two
passes' dimensions, plus the unconditional entry the last-resort pass
adds at line 1434. -/
def analysisFK (df : List DfCol) : List (String × String) :=
  let fk0 := foreignKeysOf (df.map DfCol.name) (analysisDims2 df) []
  if (analysisDims2 df).isEmpty && !(idColumns df).isEmpty then
    match idColumns df with
    | [] => fk0
    | first_id :: _ => dictInsert fk0 first_id (dimNameOfId first_id)
  else fk0

/-- The fact-column list (lines 1389-1391, 1423-1427 and the final
truncation of line 1437). -/
def analysisFacts (df : List DfCol) : List String :=
  let columns := df.map DfCol.name
  let fact0 := numericColumns df
  let remaining := columns.filter fun col =>
    !fact0.contains col && !((analysisDims2 df).any fun d => d.2.columns.contains col)
  let fact1 := fact0 ++ remaining
  let fact2 := if fact1.isEmpty then (numericColumns df).take 20 else fact1
  if fact2.isEmpty then columns.take 10 else fact2.take 50

/-- `_create_fallback_analysis` (src/agents/openai_agents.py:1382-1443). -/
def create_fallback_analysis (df : List DfCol) : FallbackAnalysis :=
  { fact_columns := analysisFacts df
    dimensions := analysisDims3 df
    foreign_keys := analysisFK df }

/-! ## Agent 3C: `validate_generated_code` (pre-checks)

The pre-check battery (src/agents/openai_agents.py:2836-2957) is
deterministic in the code string; two checks call out of the embedded
fragment and enter as oracle parameters: Python `compile()` (pre-check 3)
as the optional syntax-error message, and the two SQL-type regexes of
pre-check 2 as the deduplicated list of offending type tokens.  When
every pre-check passes the source goes on to an LLM validation; that
verdict is the `aiVerdict` oracle. -/

/-- Verdict shape: `is_valid` and `issues` (the derived `feedback` string
and `validation_details` dict are omitted). -/
structure ValidationResult where
  is_valid : Bool
  issues : List String
deriving DecidableEq, Repr

/-- Issue text of pre-check 4 (line 2913). -/
def emptyDeriveIssue : String :=
  "Empty derive() transformation found - derive() must have expressions or be removed. This causes 'missing input stream' error in ADF."

/-- Issue text of pre-check 5 (line 2920). -/
def loadInTransIssue : String :=
  "Load* name found in transformations array - Load* names are sinks, not transformations. This causes 'missing input stream' error in ADF."

/-- Issue text when `deploy_complete_solution` is missing (line 2885). -/
def deployNotFoundIssue : String :=
  "The 'deploy_complete_solution' method definition was not found in the generated code"

/-- Issue text for a missing `sql_config` parameter (line 2881). -/
def missingSqlConfigIssue : String :=
  "The 'deploy_complete_solution' method is missing required parameter: 'sql_config'"

/-- Issue text for a missing `blob_config` parameter (line 2883). -/
def missingBlobConfigIssue : String :=
  "The 'deploy_complete_solution' method is missing required parameter: 'blob_config'"

/-- Issue text of pre-check 2 for one SQL type token (line 2900). -/
def sqlTypeIssue (t : String) : String :=
  "SQL type '" ++ t ++ "' found in cast operation - ADF only supports: string, integer, long, double, decimal, boolean, timestamp, date"

/-- Issue text of pre-check 3 (line 2907). -/
def syntaxErrorIssue (e : String) : String :=
  "Python syntax error: " ++ e

/-- Case-insensitive literal match (the effect of `re.IGNORECASE` on a
literal): when `lit` is a prefix of `l` up to ASCII case, the rest of
`l`. -/
def ciPrefix : List Char → List Char → Option (List Char)
  | [], l => some l
  | _ :: _, [] => none
  | a :: la, c :: lc => if c.toLower = a.toLower then ciPrefix la lc else none

/-- The regex class `\w`. -/
def isWordChar (c : Char) : Bool := c.isAlphanum || c = '_'

/-- `\s*`. -/
def skipWs (l : List Char) : List Char := l.dropWhile isPyWs

/-- A match of `derive\s*\(\s*\)\s*~>` (re.IGNORECASE) starting at the
head of `l` (pre-check 4, line 2910). -/
def emptyDeriveAt (l : List Char) : Bool :=
  match ciPrefix ("derive".data) l with
  | none => false
  | some r1 =>
    match skipWs r1 with
    | '(' :: r2 =>
      match skipWs r2 with
      | ')' :: r3 =>
        match skipWs r3 with
        | '~' :: '>' :: _ => true
        | _ => false
      | _ => false
    | _ => false

/-- Whether a predicate matches at some position of the text: the regex
`re.search` existence question. -/
def anySuffix (p : List Char → Bool) : List Char → Bool
  | [] => p []
  | c :: tl => p (c :: tl) || anySuffix p (tl)

/-- `re.search(r'derive\s*\(\s*\)\s*~>', code, re.IGNORECASE)` finds a
match. -/
def hasEmptyDerive (code : List Char) : Bool := anySuffix emptyDeriveAt code

/-- A match of `Transformation\(name=['\"]Load\w+['\"]\)` (re.IGNORECASE)
starting at the head of `l` (pre-check 5, line 2917).  `\w+` and the
closing quote are disjoint classes, so the greedy `\w+` is the maximal
word-character run. -/
def loadTransAt (l : List Char) : Bool :=
  match ciPrefix ("transformation(name=".data) l with
  | none => false
  | some r1 =>
    match r1 with
    | q :: r2 =>
      if q = '\'' || q = '"' then
        match ciPrefix ("load".data) r2 with
        | none => false
        | some r3 =>
          let run := r3.takeWhile isWordChar
          match r3.drop run.length with
          | q2 :: p2 :: _ => !run.isEmpty && (q2 = '\'' || q2 = '"') && p2 = ')'
          | _ => false
      else false
    | [] => false

/-- Pre-check 5 finds a `Transformation(name='Load...')` entry. -/
def hasLoadTrans (code : List Char) : Bool := anySuffix loadTransAt code

/-- The first position where a partial match function succeeds:
`re.search` for a deterministic pattern. -/
def findFirst {α : Type} (f : List Char → Option α) : List Char → Option α
  | [] => f []
  | c :: tl =>
    match f (c :: tl) with
    | some a => some a
    | none => findFirst f (tl)

/-- A match of `def\s+deploy_complete_solution\s*\([^)]*\)`
(re.IGNORECASE) starting at the head of `l` (pre-check 1, line 2864).
`[^)]*` is determined as the run up to the first `)`.  Returned is the
text between the parentheses of the matched signature: the only part of
`group(0)` in which the subsequent `\bsql_config\b` / `\bblob_config\b`
searches can succeed. -/
def deployMatchAt (l : List Char) : Option (List Char) :=
  match ciPrefix ("def".data) l with
  | none => none
  | some r1 =>
    match r1 with
    | c :: r2 =>
      if isPyWs c then
        match ciPrefix ("deploy_complete_solution".data) (skipWs r2) with
        | none => none
        | some r3 =>
          match skipWs r3 with
          | p :: r4 =>
            if p = '(' then
              let inner := r4.takeWhile fun c2 => c2 ≠ ')'
              match r4.drop inner.length with
              | _ :: _ => some inner
              | [] => none
            else none
          | [] => none
      else none
    | [] => none

/-- A word-boundary occurrence of `needle` (lowercase literal, matched
case-insensitively) at the head of `hay`, with `prev` the character just
before it: the regex `\bneedle\b`. -/
def wordOccAt (needle hay : List Char) (prev : Option Char) : Bool :=
  match ciPrefix needle hay with
  | none => false
  | some rest =>
    (match prev with
     | none => true
     | some pc => !isWordChar pc) &&
    (match rest with
     | [] => true
     | c :: _ => !isWordChar c)

/-- `re.search(r'\bneedle\b', hay, re.IGNORECASE)` finds a match. -/
def hasWordOcc (needle : List Char) (prev : Option Char) (hay : List Char) : Bool :=
  wordOccAt needle hay prev ||
    match hay with
    | [] => false
    | c :: tl => hasWordOcc needle (some c) tl

/-- Pre-check 1 (lines 2862-2885): the issues contributed by the
`deploy_complete_solution` signature check. -/
def deployIssues (code : List Char) : List String :=
  match findFirst deployMatchAt code with
  | some inner =>
    let sig := '(' :: (inner ++ [')'])
    (if hasWordOcc ("sql_config".data) none sig then [] else [missingSqlConfigIssue]) ++
      (if hasWordOcc ("blob_config".data) none sig then [] else [missingBlobConfigIssue])
  | none => [deployNotFoundIssue]

/-- Pre-check 3 (lines 2902-2907): the issue contributed by a failing
`compile(generated_code, ...)`, whose outcome is the oracle argument. -/
def syntaxIssues (pySyntaxError : Option String) : List String :=
  match pySyntaxError with
  | some e => [syntaxErrorIssue e]
  | none => []

/-- Pre-check 4 (lines 2909-2914): the empty-derive issue, flagged once. -/
def deriveIssues (code : List Char) : List String :=
  if hasEmptyDerive code then [emptyDeriveIssue] else []

/-- Pre-check 5 (lines 2916-2921): the Load-in-transformations issue,
flagged once. -/
def loadIssues (code : List Char) : List String :=
  if hasLoadTrans code then [loadInTransIssue] else []

/-- The `pre_check_issues` list (lines 2855-2921), in check order. -/
def preCheckIssues (pySyntaxError : Option String) (sqlCastTypes : List String)
    (code : List Char) : List String :=
  deployIssues code ++ sqlCastTypes.map sqlTypeIssue ++
    syntaxIssues pySyntaxError ++ deriveIssues code ++ loadIssues code

/-- `validate_generated_code` (src/agents/openai_agents.py:2836-2957
and the LLM tail).  `clientPresent` is `self.client is not None`;
`pySyntaxError` is the outcome of `compile(generated_code, ...)`
(pre-check 3); `sqlCastTypes` is the deduplicated token list the two
regexes of pre-check 2 collect; `aiVerdict` is the verdict of the LLM
validation run when every pre-check passes. -/
def validate_generated_code (clientPresent : Bool) (pySyntaxError : Option String)
    (sqlCastTypes : List String) (aiVerdict : ValidationResult)
    (code : String) : ValidationResult :=
  if !clientPresent then
    { is_valid := true, issues := [] }
  else if (pyStrip code.data).isEmpty then
    { is_valid := false, issues := ["Generated code is empty"] }
  else if !(preCheckIssues pySyntaxError sqlCastTypes code.data).isEmpty then
    { is_valid := false, issues := preCheckIssues pySyntaxError sqlCastTypes code.data }
  else aiVerdict

/-! ## Agent 3 regeneration loop: `generate_python_sdk_code` -/

/-- One attempt's externally produced data: the code Agent 3B generated
and the verdict Agent 3C returned for it.  The loop's feedback threading
is captured by indexing attempts: attempt `i`'s outcome is a function of
everything that happened before it, so a run of the loop is determined by
the sequence of outcomes. -/
structure AttemptOut where
  code : String
  verdict : ValidationResult
deriving Repr

/-- The value `generate_python_sdk_code` returns from its validation
loop (the `agent3a_decision` field is omitted). -/
structure GenOutcome where
  code : String
  validation_result : ValidationResult
  attempt_count : Nat
  final_validation_status : Bool
deriving Repr

/-- The loop body of `generate_python_sdk_code`
(src/agents/openai_agents.py:4269-4350), iterating `attempt` from the
current index while fewer than `maxRetries` attempts have run.  `none`
models falling out of the `for` with no attempt executed (the source then
reads a never-assigned local and raises), which is unreachable when
`maxRetries ≥ 1`. -/
def regenLoopFrom (gen : Nat → AttemptOut) (maxRetries : Nat) :
    Nat → Option GenOutcome
  | attempt =>
    if h : attempt < maxRetries then
      let a := gen attempt
      if a.verdict.is_valid then
        some ⟨a.code, a.verdict, attempt + 1, true⟩
      else if attempt < maxRetries - 1 then
        regenLoopFrom gen maxRetries (attempt + 1)
      else
        some ⟨a.code, a.verdict, attempt + 1, false⟩
    else none
termination_by attempt => maxRetries - attempt
decreasing_by omega

/-- The validation loop of `generate_python_sdk_code`, started at
attempt 0 (the source fixes `max_retries = 2`; the loop structure is the
same for any bound). -/
def generate_python_sdk_code_loop (gen : Nat → AttemptOut) (maxRetries : Nat) :
    Option GenOutcome :=
  regenLoopFrom gen maxRetries 0

/-! ## Agent 3: `_normalize_dimensions` -/

/-- The dict branch of `_normalize_dimensions`
(src/agents/openai_agents.py:1877-1900) on well-typed input (string
names, `columns` a list, `primary_key` a string; the duck-typing repairs
for other shapes do not affect the name handling the claims are about):
a name is prefixed with `Dim` unless it already starts with `dim` in any
case, and an empty primary key is defaulted to the first column. -/
def normStep (acc : List (String × DimInfo)) (p : String × DimInfo) :
    List (String × DimInfo) :=
  let dim_name := if startsLower "dim" p.1 then p.1 else "Dim" ++ p.1
  let cols := p.2.columns
  let pk :=
    if p.2.primary_key = "" ∧ cols ≠ [] then cols.headI else p.2.primary_key
  dictInsert acc dim_name ⟨cols, pk⟩

/-- `_normalize_dimensions` on dict input: the per-entry step folded over
the entries in insertion order. -/
def normalize_dimensions (dims : List (String × DimInfo)) : List (String × DimInfo) :=
  dims.foldl normStep []

/-! ## Agent 3: `_generate_transform_dataflow_script`

The generated dataflow script is a sequence of node declarations, each
terminated by `~> Name`.  The script is modelled structurally: one
`ScriptPart` per declaration, carrying the data the source writes into
it.  `partName` is the name after the part's `~>` terminator and
`partUpstream` the name the declaration references as its input; for
column names made of identifier characters (the repository's case) these
are exactly the names the `~\s*>\s*(\w+)` extraction regex of
`_extract_transformations_from_script` recovers from the rendered
text. -/

/-- Python's `col.replace(' ', '_').replace('-', '_').replace('.', '_')`
scrubbing (applied throughout the generator). -/
def cleanCol (col : String) : String :=
  String.mk (col.data.map fun c => if c = ' ' ∨ c = '-' ∨ c = '.' then '_' else c)

/-- One declaration of the generated dataflow script. -/
inductive ScriptPart
  /-- `source(output(...)) ~> StagingSource` with the cleaned CSV
  columns (lines 5131-5142). -/
  | source (cols : List String)
  /-- `StagingSource select(mapColumn(...)) ~> Select{table}` (lines
  5204-5209 and 5345-5350). -/
  | selectPart (table : String) (cols : List String)
  /-- `Select{table} aggregate(groupBy({pk}), {col} = first({col}), ...)
  ~> Aggregate{table}` (lines 5211-5213). -/
  | aggregatePart (table : String) (groupBy : String) (targets : List String)
  /-- `{upstream} cast(output({col} as {ty}, ...)) ~> Cast{table}`
  (lines 5284-5288 and 5418-5422). -/
  | castPart (table : String) (upstream : String) (casts : List (String × String))
  /-- `Aggregate{table} derive({col} = toDate({col}), ...) ~>
  Derive{table}` (lines 5301-5304). -/
  | derivePart (table : String) (upstream : String) (exprs : List String)
  /-- `{upstream} sink(...) ~> Load{table}` (lines 5308-5318 and
  5426-5436). -/
  | sinkPart (table : String) (upstream : String)
deriving DecidableEq, Repr

/-- The name following the part's `~>` terminator. -/
def partName : ScriptPart → String
  | .source _ => "StagingSource"
  | .selectPart table _ => "Select" ++ table
  | .aggregatePart table _ _ => "Aggregate" ++ table
  | .castPart table _ _ => "Cast" ++ table
  | .derivePart table _ _ => "Derive" ++ table
  | .sinkPart table _ => "Load" ++ table

/-- The upstream name the declaration references (none for the source). -/
def partUpstream : ScriptPart → Option String
  | .source _ => none
  | .selectPart _ _ => some "StagingSource"
  | .aggregatePart table _ _ => some ("Select" ++ table)
  | .castPart _ upstream _ => some upstream
  | .derivePart _ upstream _ => some upstream
  | .sinkPart _ upstream => some upstream

/-- A column-type entry of Agent 2's `column_types` dict as the
generator reads it: only the `sql_type` field is consulted. -/
structure ColType where
  sql_type : String
deriving DecidableEq, Repr

/-- `sql_type and sql_type not in ['NVARCHAR', 'VARCHAR', 'STRING'] and
'TEXT' not in sql_type` on the uppercased recommendation (lines
5227-5229 and 5363-5365): the column needs a cast. -/
def sqlTypeNeedsCast (sql_type_upper : List Char) : Bool :=
  !sql_type_upper.isEmpty &&
    !(["NVARCHAR".data, "VARCHAR".data, "STRING".data].contains sql_type_upper) &&
    !hasSub sql_type_upper ("TEXT".data)

/-- `cast_needed` from Agent 2's recommendations for a column list
(lines 5224-5231 and 5360-5367). -/
def castNeededFromTypes (column_types : List (String × ColType)) (cols : List String) : Bool :=
  cols.any fun col =>
    let col_clean := cleanCol col
    !column_types.isEmpty &&
      match dictFind column_types col_clean with
      | some ct => sqlTypeNeedsCast (upperChars ct.sql_type)
      | none => false

/-- The Agent 2 part of one cast entry (lines 5268-5280 and 5402-5414):
the ADF type for a column's recommended SQL type, if any rule fires. -/
def agent2CastType (column_types : List (String × ColType)) (col_clean : String) :
    Option String :=
  if column_types.isEmpty then none
  else
    match dictFind column_types col_clean with
    | none => none
    | some ct =>
      let st := upperChars ct.sql_type
      if hasSub st ("INT".data) ||
          ["BIGINT".data, "SMALLINT".data, "TINYINT".data].contains st then
        some "integer"
      else if hasSub st ("DECIMAL".data) || hasSub st ("NUMERIC".data) ||
          hasSub st ("MONEY".data) then
        some "decimal(18,2)"
      else if hasSub st ("DATE".data) then some "date"
      else if hasSub st ("TIME".data) || hasSub st ("DATETIME".data) then
        some "timestamp"
      else none

/-- `is_healthcare` for the dimension section (line 5221). -/
def isHealthcareDim (context_keyword : String) : Bool :=
  inLower "healthcare" context_keyword || inLower "hospital" context_keyword ||
    inLower "patient" context_keyword || inLower "doctor" context_keyword

/-- `is_healthcare` for the fact section (line 5357). -/
def isHealthcareFact (context_keyword : String) : Bool :=
  inLower "healthcare" context_keyword || inLower "hospital" context_keyword ||
    inLower "patient" context_keyword || inLower "visit" context_keyword

/-- The cast-entry list for one dimension (lines 5254-5280). -/
def dimCastCols (column_types : List (String × ColType)) (is_healthcare : Bool)
    (dim_name : String) (dim_columns : List String) : List (String × String) :=
  dim_columns.filterMap fun col =>
    let col_clean := cleanCol col
    if is_healthcare && inLower "patient" dim_name && inLower "age" col then
      some (col_clean, "integer")
    else if is_healthcare && inLower "doctor" dim_name && inLower "year" col &&
        inLower "experience" col then
      some (col_clean, "integer")
    else
      (agent2CastType column_types col_clean).map fun ty => (col_clean, ty)

/-- The effective primary key of a dimension in the generator (lines
5171-5180): an empty key is replaced by the first `_id`-suffixed column,
else the first column. -/
def effectivePk (dim_columns : List String) (primary_key : String) : String :=
  if primary_key = "" then
    match dim_columns.filter (fun col => inLower "id" col && endsLower "_id" col) with
    | p :: _ => p
    | [] => dim_columns.headI
  else primary_key

/-- Whether the per-dimension loop skips a dimension entirely (lines
5154-5169): a name containing `unknown` or `unk`, or an empty column
list.  (The `continue` for a dimension left with no primary key at line
5180 is unreachable: a nonempty column list always yields one.) -/
def dimSkipped (dim_name : String) (dim_columns : List String) : Bool :=
  inLower "unknown" dim_name || inLower "unk" dim_name || dim_columns.isEmpty

/-- `cast_needed` for one dimension: Agent 2 recommendations (lines
5224-5231) plus the healthcare context rules (lines 5234-5243). -/
def dimCastNeeded (column_types : List (String × ColType)) (context_keyword : String)
    (dim_name : String) (dim_columns : List String) : Bool :=
  castNeededFromTypes column_types dim_columns ||
    (isHealthcareDim context_keyword && inLower "patient" dim_name &&
      dim_columns.any fun col => inLower "age" col) ||
    (isHealthcareDim context_keyword && !inLower "patient" dim_name &&
      inLower "doctor" dim_name &&
      dim_columns.any fun col => inLower "year" col && inLower "experience" col)

/-- `derive_needed` for one dimension (lines 5244-5250): only for a
healthcare-context dimension whose name mentions `date` (and matches
neither `patient` nor `doctor` first) with a date column. -/
def dimDeriveNeeded (context_keyword : String) (dim_name : String)
    (dim_columns : List String) : Bool :=
  isHealthcareDim context_keyword && !inLower "patient" dim_name &&
    !inLower "doctor" dim_name && inLower "date" dim_name &&
    dim_columns.any fun col => inLower "date" col

/-- The derive-entry list for one dimension (lines 5293-5297). -/
def dimDeriveCols (dim_columns : List String) : List String :=
  (dim_columns.filter fun col => inLower "date" col || inLower "time" col).map cleanCol

/-- The cast node is emitted iff `cast_needed` holds and the cast-entry
list is nonempty (lines 5253 and 5282). -/
def dimCastUsed (column_types : List (String × ColType)) (context_keyword : String)
    (dim_name : String) (dim_columns : List String) : Bool :=
  dimCastNeeded column_types context_keyword dim_name dim_columns &&
    !(dimCastCols column_types (isHealthcareDim context_keyword) dim_name
        dim_columns).isEmpty

/-- The derive node is emitted iff `derive_needed and not cast_needed`
holds and the derive-entry list is nonempty (lines 5292 and 5299). -/
def dimDeriveUsed (column_types : List (String × ColType)) (context_keyword : String)
    (dim_name : String) (dim_columns : List String) : Bool :=
  dimDeriveNeeded context_keyword dim_name dim_columns &&
    !dimCastNeeded column_types context_keyword dim_name dim_columns &&
    !(dimDeriveCols dim_columns).isEmpty

/-- `final_transform` for one dimension (lines 5216, 5289 and 5305). -/
def dimFinal (column_types : List (String × ColType)) (context_keyword : String)
    (dim_name : String) (dim_columns : List String) : String :=
  if dimCastUsed column_types context_keyword dim_name dim_columns then
    "Cast" ++ dim_name
  else if dimDeriveUsed column_types context_keyword dim_name dim_columns then
    "Derive" ++ dim_name
  else "Aggregate" ++ dim_name

/-- The `groupBy` name of the aggregate node (line 5202). -/
def dimPkClean (dim_info : DimInfo) : String :=
  let primary_key := effectivePk dim_info.columns dim_info.primary_key
  if primary_key = "" then cleanCol dim_info.columns.headI else cleanCol primary_key

/-- The aggregate-target names (lines 5193-5199): every column except
the groupBy key, each emitted as `{col} = first({col})`. -/
def dimAggTargets (dim_info : DimInfo) : List String :=
  let primary_key := effectivePk dim_info.columns dim_info.primary_key
  (dim_info.columns.filter fun col => primary_key = "" || col ≠ primary_key).map cleanCol

/-- The script declarations one dimension contributes (the body of the
loop at src/agents/openai_agents.py:5151-5320). -/
def dimChain (column_types : List (String × ColType)) (context_keyword : String)
    (dim_name : String) (dim_info : DimInfo) : List ScriptPart :=
  if dimSkipped dim_name dim_info.columns then []
  else
    [ScriptPart.selectPart dim_name (dim_info.columns.map cleanCol),
     ScriptPart.aggregatePart dim_name (dimPkClean dim_info) (dimAggTargets dim_info)] ++
      (if dimCastUsed column_types context_keyword dim_name dim_info.columns then
        [ScriptPart.castPart dim_name ("Aggregate" ++ dim_name)
          (dimCastCols column_types (isHealthcareDim context_keyword) dim_name
            dim_info.columns)]
      else []) ++
      (if dimDeriveUsed column_types context_keyword dim_name dim_info.columns then
        [ScriptPart.derivePart dim_name ("Aggregate" ++ dim_name)
          (dimDeriveCols dim_info.columns)]
      else []) ++
      [ScriptPart.sinkPart dim_name
        (dimFinal column_types context_keyword dim_name dim_info.columns)]

/-- The cast-entry list for the fact table (lines 5378-5414). -/
def factCastCols (column_types : List (String × ColType)) (is_healthcare : Bool)
    (fact_columns : List String) : List (String × String) :=
  fact_columns.filterMap fun col =>
    let col_clean := cleanCol col
    if is_healthcare &&
        (inLower "amount" col || inLower "cost" col || inLower "price" col) then
      some (col_clean, "decimal(18,2)")
    else if is_healthcare && (inLower "quantity" col || inLower "qty" col) then
      some (col_clean, "integer")
    else if is_healthcare &&
        (inLower "days" col || inLower "minutes" col || inLower "hours" col ||
          inLower "duration" col) then
      some (col_clean, "integer")
    else if is_healthcare &&
        (inLower "timestamp" col || inLower "record_created" col) then
      some (col_clean, "timestamp")
    else
      (agent2CastType column_types col_clean).map fun ty => (col_clean, ty)

/-- The measure-indicator scan of line 5370-5374: an indicator occurring
in the space-joined lowercased fact column names. -/
def factMeasureIndicator (fact_columns : List String) : Bool :=
  let joined := (fact_columns.map fun c => String.mk (lowerChars c)).intersperse " "
  let joinedChars := (String.join joined).data
  ["amount", "cost", "quantity", "days", "minutes", "timestamp"].any fun ind =>
    hasSub joinedChars ind.data

/-- The fact-table cast node is emitted iff `cast_needed` (Agent 2
recommendations or healthcare measure indicators, lines 5354-5374) holds
and the cast-entry list is nonempty (line 5416). -/
def factCastUsed (column_types : List (String × ColType)) (context_keyword : String)
    (fact_columns : List String) : Bool :=
  (castNeededFromTypes column_types fact_columns ||
      (isHealthcareFact context_keyword && factMeasureIndicator fact_columns)) &&
    !(factCastCols column_types (isHealthcareFact context_keyword)
        fact_columns).isEmpty

/-- The fact-table section (lines 5336-5436). -/
def factChain (column_types : List (String × ColType)) (context_keyword : String)
    (fact_columns : List String) (fact_tables : List (String × String)) :
    List ScriptPart :=
  match fact_columns, fact_tables with
  | _ :: _, (table, _) :: _ =>
    [ScriptPart.selectPart table (fact_columns.map cleanCol)] ++
      (if factCastUsed column_types context_keyword fact_columns then
        [ScriptPart.castPart table ("Select" ++ table)
          (factCastCols column_types (isHealthcareFact context_keyword) fact_columns)]
      else []) ++
      [ScriptPart.sinkPart table
        (if factCastUsed column_types context_keyword fact_columns then
          "Cast" ++ table
        else "Select" ++ table)]
  | _, _ => []

/-- `_generate_transform_dataflow_script`
(src/agents/openai_agents.py:5122-5438) as the list of script
declarations: the staging source (when CSV columns exist), one chain per
surviving dimension, then the fact chain. -/
def generate_transform_dataflow_script (csv_columns : List String)
    (fact_columns : List String) (dimensions : List (String × DimInfo))
    (column_types : List (String × ColType)) (fact_tables : List (String × String))
    (context_keyword : String) : List ScriptPart :=
  (if csv_columns.isEmpty then []
   else [ScriptPart.source (csv_columns.map cleanCol)]) ++
    (dimensions.flatMap fun p => dimChain column_types context_keyword p.1 p.2) ++
    factChain column_types context_keyword fact_columns fact_tables

/-- `_extract_transformations_from_script`
(src/agents/openai_agents.py:5518-5532) on the script's `~>`-terminator
names: drop names starting with `Load` and the source/staging names,
deduplicate preserving first occurrence. -/
def extractStep (transformations : List String) (m : String) : List String :=
  if !("Load".data.isPrefixOf m.data) &&
      !(["SourceCSV", "StagingSink", "StagingSource"].contains m) &&
      !transformations.contains m then
    transformations ++ [m]
  else transformations

def extract_transformations (ms : List String) : List String :=
  ms.foldl extractStep []

/-- The `~>`-terminator names of the whole script, in order: what the
`~\s*>\s*(\w+)` scan of the rendered text returns. -/
def scriptNames (parts : List ScriptPart) : List String := parts.map partName

/-- The upstream names referenced by the script's sink declarations, in
order. -/
def sinkUpstreams (parts : List ScriptPart) : List String :=
  parts.filterMap fun p =>
    match p with
    | .sinkPart _ upstream => some upstream
    | _ => none

/-- Recognizers for counting nodes of each kind. -/
def isSelectPart : ScriptPart → Bool
  | .selectPart _ _ => true
  | _ => false

def isAggregatePart : ScriptPart → Bool
  | .aggregatePart _ _ _ => true
  | _ => false

def isSinkPart : ScriptPart → Bool
  | .sinkPart _ _ => true
  | _ => false

/-! ## Lemmas about the dict model -/

theorem mem_dictInsert {α : Type} {d : List (String × α)} {k : String} {v : α}
    {p : String × α} (hp : p ∈ dictInsert d k v) : p ∈ d ∨ p = (k, v) := by
  induction d with
  | nil => simpa [dictInsert] using hp
  | cons q rest ih =>
    obtain ⟨k0, v0⟩ := q
    by_cases hk : k0 = k
    · simp only [dictInsert, if_pos hk, List.mem_cons] at hp
      rcases hp with h1 | h1
      · exact Or.inr h1
      · exact Or.inl (List.mem_cons_of_mem _ h1)
    · simp only [dictInsert, if_neg hk, List.mem_cons] at hp
      rcases hp with h1 | h1
      · exact Or.inl (by rw [h1]; exact List.mem_cons_self _ _)
      · rcases ih h1 with h2 | h2
        · exact Or.inl (List.mem_cons_of_mem _ h2)
        · exact Or.inr h2

theorem dictKeys_dictInsert {α : Type} (d : List (String × α)) (k : String) (v : α) :
    dictKeys (dictInsert d k v) =
      if k ∈ dictKeys d then dictKeys d else dictKeys d ++ [k] := by
  induction d with
  | nil => simp [dictInsert, dictKeys]
  | cons q rest ih =>
    obtain ⟨k0, v0⟩ := q
    by_cases hk : k0 = k
    · subst hk
      simp [dictInsert, dictKeys]
    · simp only [dictInsert, if_neg hk, dictKeys, List.map_cons] at ih ⊢
      rw [ih]
      have hne : ¬ k = k0 := fun h => hk h.symm
      by_cases hmem : k ∈ List.map Prod.fst rest
      · simp [hmem, hne]
      · simp [hmem, hne]

theorem mem_dictKeys_dictInsert_self {α : Type} (d : List (String × α)) (k : String) (v : α) :
    k ∈ dictKeys (dictInsert d k v) := by
  rw [dictKeys_dictInsert]
  by_cases hmem : k ∈ dictKeys d
  · simp [hmem]
  · simp [hmem]

theorem mem_dictKeys_dictInsert_of_mem {α : Type} {d : List (String × α)} {n : String}
    (k : String) (v : α) (hn : n ∈ dictKeys d) : n ∈ dictKeys (dictInsert d k v) := by
  rw [dictKeys_dictInsert]
  by_cases hmem : k ∈ dictKeys d
  · simpa [hmem]
  · simp [hmem, List.mem_append, hn]

theorem nodup_dictKeys_dictInsert {α : Type} {d : List (String × α)} (k : String) (v : α)
    (hd : (dictKeys d).Nodup) : (dictKeys (dictInsert d k v)).Nodup := by
  rw [dictKeys_dictInsert]
  by_cases hmem : k ∈ dictKeys d
  · simpa [hmem]
  · simp only [hmem, if_false]
    rw [List.nodup_append]
    refine ⟨hd, List.nodup_singleton k, ?_⟩
    intro x hx hx2
    simp only [List.mem_singleton] at hx2
    exact hmem (hx2 ▸ hx)

theorem dictInsert_eq_append {α : Type} {d : List (String × α)} {k : String} (v : α)
    (hk : k ∉ dictKeys d) : dictInsert d k v = d ++ [(k, v)] := by
  induction d with
  | nil => simp [dictInsert]
  | cons q rest ih =>
    obtain ⟨k0, v0⟩ := q
    have h1 : ¬ k0 = k := by
      intro h
      exact hk (by simp [dictKeys, h])
    have h2 : k ∉ dictKeys rest := by
      intro h
      exact hk (by simp [dictKeys] at h ⊢; exact Or.inr h)
    simp [dictInsert, h1, ih h2]

/-! ## C6: the fallback type inference -/

theorem create_fallback_datatypes_eq_map :
    ∀ (cols : List PdColumn) (acc : List (String × TypeDecision)),
      (∀ c ∈ cols, c.name ∉ dictKeys acc) → (cols.map PdColumn.name).Nodup →
      cols.foldl (fun acc c => dictInsert acc c.name (fallbackDatatypeFor c)) acc =
        acc ++ cols.map (fun c => (c.name, fallbackDatatypeFor c)) := by
  intro cols
  induction cols with
  | nil => intro acc _ _; simp
  | cons c rest ih =>
    intro acc hfresh hnd
    simp only [List.map_cons, List.nodup_cons] at hnd
    have hc : c.name ∉ dictKeys acc := hfresh c (List.mem_cons_self _ _)
    simp only [List.foldl_cons, dictInsert_eq_append _ hc]
    rw [ih (acc ++ [(c.name, fallbackDatatypeFor c)])
      (by
        intro c2 hc2
        simp only [dictKeys, List.map_append, List.mem_append, List.map_cons]
        push_neg
        refine ⟨fun h => hfresh c2 (List.mem_cons_of_mem _ hc2) h, ?_⟩
        simp only [List.map_nil, List.mem_singleton]
        intro h
        exact hnd.1 (h ▸ List.mem_map_of_mem PdColumn.name hc2))
      hnd.2]
    simp

theorem dictFind_map_of_nodup {β : Type} (f : PdColumn → β) :
    ∀ (cols : List PdColumn) (c : PdColumn), (cols.map PdColumn.name).Nodup →
      c ∈ cols →
      dictFind (cols.map fun c2 => (c2.name, f c2)) c.name = some (f c) := by
  intro cols
  induction cols with
  | nil => intro c _ hc; cases hc
  | cons c0 rest ih =>
    intro c hnd hc
    simp only [List.map_cons, List.nodup_cons] at hnd
    rcases List.mem_cons.mp hc with h | h
    · subst h
      simp [dictFind]
    · have hne : c0.name ≠ c.name := by
        intro he
        exact hnd.1 (he ▸ List.mem_map_of_mem PdColumn.name h)
      simp only [List.map_cons, dictFind, if_neg hne]
      exact ih c hnd.2 h

/-- C6 (amended): the fallback type inference is total — with distinct
column names it returns exactly one decision per input column, in column
order — the canonical type is a function of the pandas dtype alone
(integer dtypes map to integer, or to long iff an observed extremum
exceeds 2^31 - 1 in absolute value, which also sends the 32-bit value
-2^31 to long; float dtypes to decimal(18,2); datetime dtypes to
timestamp; boolean dtypes to boolean; everything else to string), and
nullable holds iff the column's null count is positive. -/
theorem fallback_datatypes_total_and_typed (cols : List PdColumn)
    (hnd : (cols.map PdColumn.name).Nodup) :
    create_fallback_datatypes cols = cols.map (fun c => (c.name, fallbackDatatypeFor c)) ∧
      ∀ c ∈ cols,
        dictFind (create_fallback_datatypes cols) c.name = some (fallbackDatatypeFor c) ∧
          (fallbackDatatypeFor c).adf_type = claimC6AdfTypeAmended c ∧
          (fallbackDatatypeFor c).nullable = decide (0 < c.nullCount) := by
  have heq : create_fallback_datatypes cols =
      cols.map (fun c => (c.name, fallbackDatatypeFor c)) := by
    simpa [create_fallback_datatypes] using
      create_fallback_datatypes_eq_map cols [] (by simp [dictKeys]) hnd
  refine ⟨heq, fun c hc => ⟨?_, ?_, ?_⟩⟩
  · rw [heq]
    exact dictFind_map_of_nodup fallbackDatatypeFor cols c hnd hc
  · unfold fallbackDatatypeFor claimC6AdfTypeAmended
    split_ifs <;> simp_all
  · unfold fallbackDatatypeFor
    split_ifs <;> rfl

/-- The input refuting C6 as stated: an integer column whose observed
minimum is -2^31, inside the 32-bit signed bounds. -/
def c6CounterexampleColumn : PdColumn :=
  ⟨"Balance", "int64", 0, true, -2147483648, 0, 0⟩

/-- C6 counterexample: at the column above the code returns `long`
although the claim's reading (range exceeds the 32-bit signed bounds
[-2^31, 2^31 - 1]) prescribes `integer`: `abs(min_val) > 2147483647`
already holds at the in-range value -2^31. -/
theorem c6_counterexample :
    ¬ ((fallbackDatatypeFor c6CounterexampleColumn).adf_type =
        claimC6AdfType c6CounterexampleColumn) := by
  decide

/-- Witness for C6 at a concrete two-column frame. -/
theorem c6_witness :
    (([⟨"Visit_ID", "int64", 0, true, 1, 5000000000, 0⟩,
      ⟨"Notes", "object", 3, true, 0, 0, 40⟩] : List PdColumn).map PdColumn.name).Nodup ∧
      create_fallback_datatypes
          [⟨"Visit_ID", "int64", 0, true, 1, 5000000000, 0⟩,
           ⟨"Notes", "object", 3, true, 0, 0, 40⟩] =
        [("Visit_ID", ⟨"BIGINT", "long", false⟩),
         ("Notes", ⟨"NVARCHAR(80)", "string", true⟩)] :=
  ⟨by decide,
    by
      have h := (fallback_datatypes_total_and_typed
        [⟨"Visit_ID", "int64", 0, true, 1, 5000000000, 0⟩,
         ⟨"Notes", "object", 3, true, 0, 0, 40⟩] (by decide)).1
      rw [h]
      decide⟩

/-! ## C1 and C8: invariants of the fallback schema analysis -/

theorem keywordDims_mem (tc ic : List String) :
    ∀ (kws : List (String × List String)) (dims : List (String × DimInfo))
      (p : String × DimInfo), p ∈ keywordDims tc ic kws dims →
      p ∈ dims ∨
        ((p.2.primary_key ∈ p.2.columns ∨ p.2.primary_key ∈ ic) ∧
          p.1 ∈ kws.map Prod.fst) := by
  intro kws
  induction kws with
  | nil =>
    intro dims p hp
    exact Or.inl (by simpa [keywordDims] using hp)
  | cons q rest ih =>
    intro dims p hp
    obtain ⟨nm, kw⟩ := q
    simp only [keywordDims] at hp
    rcases hmatch : tc.filter (fun col => kw.any fun k => inLower k col) with _ | ⟨m0, ms⟩
    · rw [hmatch] at hp
      rcases ih dims p hp with h | h
      · exact Or.inl h
      · exact Or.inr ⟨h.1, List.mem_cons_of_mem _ h.2⟩
    · rw [hmatch] at hp
      rcases ih _ p hp with h | h
      · rcases mem_dictInsert h with h2 | h2
        · exact Or.inl h2
        · rcases hpkc : List.filter (fun col => kw.any fun k => inLower k col) ic
            with _ | ⟨p0, ps⟩
          · rw [hpkc] at h2
            refine Or.inr ⟨Or.inl ?_, by rw [h2]; exact List.mem_cons_self _ _⟩
            rw [h2]
            exact List.mem_cons_self _ _
          · rw [hpkc] at h2
            refine Or.inr ⟨Or.inr ?_, by rw [h2]; exact List.mem_cons_self _ _⟩
            rw [h2]
            have hmemf : p0 ∈ List.filter (fun col => kw.any fun k => inLower k col) ic := by
              rw [hpkc]
              exact List.mem_cons_self _ _
            exact List.mem_of_mem_filter hmemf
      · exact Or.inr ⟨h.1, List.mem_cons_of_mem _ h.2⟩

theorem keywordDims_keys_nodup (tc ic : List String) :
    ∀ (kws : List (String × List String)) (dims : List (String × DimInfo)),
      (dictKeys dims).Nodup → (dictKeys (keywordDims tc ic kws dims)).Nodup := by
  intro kws
  induction kws with
  | nil =>
    intro dims h
    simpa [keywordDims] using h
  | cons q rest ih =>
    intro dims h
    obtain ⟨nm, kw⟩ := q
    simp only [keywordDims]
    rcases hmatch : tc.filter (fun col => kw.any fun k => inLower k col) with _ | ⟨m0, ms⟩
    · exact ih dims h
    · exact ih _ (nodup_dictKeys_dictInsert _ _ h)

theorem idDims_mem (tc : List String) :
    ∀ (ids : List String) (dims : List (String × DimInfo)) (p : String × DimInfo),
      p ∈ idDims tc ids dims →
      p ∈ dims ∨
        (p.2.primary_key ∈ p.2.columns ∧ ∃ c ∈ ids, p.1 = dimNameOfId c) := by
  intro ids
  induction ids with
  | nil =>
    intro dims p hp
    exact Or.inl (by simpa [idDims] using hp)
  | cons id_col rest ih =>
    intro dims p hp
    simp only [idDims] at hp
    rcases hrel : tc.filter
        (fun col => hasSub (lowerChars col)
          ((removeSub ("_ID".data) id_col.data).map Char.toLower)) with _ | ⟨r0, rs⟩
    · rw [hrel] at hp
      rcases ih dims p hp with h | h
      · exact Or.inl h
      · exact Or.inr ⟨h.1, by
          obtain ⟨c, hc1, hc2⟩ := h.2
          exact ⟨c, List.mem_cons_of_mem _ hc1, hc2⟩⟩
    · rw [hrel] at hp
      rcases ih _ p hp with h | h
      · rcases mem_dictInsert h with h2 | h2
        · exact Or.inl h2
        · refine Or.inr ⟨?_, id_col, List.mem_cons_self _ _, by rw [h2]⟩
          rw [h2]
          exact List.mem_cons_self _ _
      · exact Or.inr ⟨h.1, by
          obtain ⟨c, hc1, hc2⟩ := h.2
          exact ⟨c, List.mem_cons_of_mem _ hc1, hc2⟩⟩

theorem idDims_keys_nodup (tc : List String) :
    ∀ (ids : List String) (dims : List (String × DimInfo)),
      (dictKeys dims).Nodup → (dictKeys (idDims tc ids dims)).Nodup := by
  intro ids
  induction ids with
  | nil =>
    intro dims h
    simpa [idDims] using h
  | cons id_col rest ih =>
    intro dims h
    simp only [idDims]
    rcases hrel : tc.filter
        (fun col => hasSub (lowerChars col)
          ((removeSub ("_ID".data) id_col.data).map Char.toLower)) with _ | ⟨r0, rs⟩
    · exact ih dims h
    · exact ih _ (nodup_dictKeys_dictInsert _ _ h)

theorem foreignKeysOf_mem (columns : List String) :
    ∀ (dims : List (String × DimInfo)) (fk : List (String × String))
      (q : String × String), q ∈ foreignKeysOf columns dims fk →
      q ∈ fk ∨ ∃ p ∈ dims, q = (p.2.primary_key, p.1) ∧ q.1 ∈ columns := by
  intro dims
  induction dims with
  | nil =>
    intro fk q hq
    exact Or.inl (by simpa [foreignKeysOf] using hq)
  | cons d rest ih =>
    intro fk q hq
    obtain ⟨nm, info⟩ := d
    simp only [foreignKeysOf] at hq
    by_cases hcond : columns.contains info.primary_key
    · rw [if_pos hcond] at hq
      rcases ih _ q hq with h | h
      · rcases mem_dictInsert h with h2 | h2
        · exact Or.inl h2
        · refine Or.inr ⟨(nm, info), List.mem_cons_self _ _, h2, ?_⟩
          rw [h2]
          simpa using hcond
      · obtain ⟨p, hp1, hp2⟩ := h
        exact Or.inr ⟨p, List.mem_cons_of_mem _ hp1, hp2⟩
    · rw [if_neg hcond] at hq
      rcases ih fk q hq with h | h
      · exact Or.inl h
      · obtain ⟨p, hp1, hp2⟩ := h
        exact Or.inr ⟨p, List.mem_cons_of_mem _ hp1, hp2⟩

theorem analysisDims2_mem (df : List DfCol) (p : String × DimInfo)
    (hp : p ∈ analysisDims2 df) :
    (p.2.primary_key ∈ p.2.columns ∨ p.2.primary_key ∈ idColumns df) ∧
      (p.1 ∈ dimension_keywords.map Prod.fst ∨ ∃ c ∈ idColumns df, p.1 = dimNameOfId c) := by
  simp only [analysisDims2] at hp
  split at hp
  · rcases idDims_mem _ _ _ p hp with h | h
    · rcases keywordDims_mem _ _ _ _ p h with h2 | h2
      · cases h2
      · exact ⟨h2.1, Or.inl h2.2⟩
    · refine ⟨Or.inl h.1, Or.inr ?_⟩
      obtain ⟨c, hc1, hc2⟩ := h.2
      exact ⟨c, List.take_subset _ _ hc1, hc2⟩
  · rcases keywordDims_mem _ _ _ _ p hp with h2 | h2
    · cases h2
    · exact ⟨h2.1, Or.inl h2.2⟩

theorem analysisDims3_mem (df : List DfCol) (p : String × DimInfo)
    (hp : p ∈ analysisDims3 df) :
    (p.2.primary_key ∈ p.2.columns ∨ p.2.primary_key ∈ idColumns df) ∧
      (p.1 ∈ dimension_keywords.map Prod.fst ∨ ∃ c ∈ idColumns df, p.1 = dimNameOfId c) := by
  simp only [analysisDims3] at hp
  split at hp
  · rcases hic : idColumns df with _ | ⟨first_id, rest⟩
    · rw [hic] at hp
      exact hic ▸ analysisDims2_mem df p hp
    · rw [hic] at hp
      rcases mem_dictInsert hp with h2 | h2
      · exact hic ▸ analysisDims2_mem df p h2
      · refine ⟨Or.inl (by rw [h2]; exact List.mem_cons_self _ _), Or.inr ?_⟩
        exact ⟨first_id, List.mem_cons_self _ _, by rw [h2]⟩
  · exact analysisDims2_mem df p hp

theorem analysisDims3_keys_nodup (df : List DfCol) :
    (dictKeys (analysisDims3 df)).Nodup := by
  have h2 : (dictKeys (analysisDims2 df)).Nodup := by
    simp only [analysisDims2]
    split
    · exact idDims_keys_nodup _ _ _
        (keywordDims_keys_nodup _ _ _ [] (by simp [dictKeys]))
    · exact keywordDims_keys_nodup _ _ _ [] (by simp [dictKeys])
  simp only [analysisDims3]
  split
  · rcases hic : idColumns df with _ | ⟨first_id, rest⟩
    · exact h2
    · exact nodup_dictKeys_dictInsert _ _ h2
  · exact h2

/-- C1 (amended): in every fallback schema analysis, each dimension's
primary key is a member of its column list or of the input's id-column
list (the keyword pass can pick an id column that is not among the
dimension's text columns, so membership in the dimension's own columns
alone does not hold); each dimension name either comes from the fixed
keyword table — none of whose names contains the `unknown` sentinel — or
is `Dim` plus the cleaned stem of an id column, a path that can carry
the sentinel (an `Unknown_ID` column yields `DimUnknown`, as the
counterexample shows); and dimension names are pairwise distinct. -/
theorem fallback_analysis_dimension_invariants (df : List DfCol) :
    (∀ p ∈ (create_fallback_analysis df).dimensions,
        (p.2.primary_key ∈ p.2.columns ∨ p.2.primary_key ∈ idColumns df) ∧
          (p.1 ∈ dimension_keywords.map Prod.fst ∨
            ∃ c ∈ idColumns df, p.1 = dimNameOfId c)) ∧
      (dictKeys (create_fallback_analysis df).dimensions).Nodup ∧
      (∀ n ∈ dimension_keywords.map Prod.fst, inLower "unknown" n = false) := by
  refine ⟨fun p hp => analysisDims3_mem df p hp, analysisDims3_keys_nodup df, ?_⟩
  decide

/-- The DataFrame refuting C1's primary-key clause: a numeric
`Patient_ID` (hence an id column but not a text column) next to a
textual `Patient_Name`. -/
def c1CounterexampleDf : List DfCol :=
  [⟨"Patient_ID", PdKind.num⟩, ⟨"Patient_Name", PdKind.obj⟩]

/-- The DataFrame refuting C1's sentinel clause: two textual columns
`Unknown_ID` and `Unknown_Reason` match no keyword, so the id-column
synthesis pass builds a dimension named `DimUnknown`. -/
def c1SentinelDf : List DfCol :=
  [⟨"Unknown_ID", PdKind.obj⟩, ⟨"Unknown_Reason", PdKind.obj⟩]

/-- C1 counterexample, refuting both failing clauses of the conjunction
at explicit inputs: on `c1CounterexampleDf` the keyword pass produces
`DimPatient` with columns `[Patient_Name]` but primary key `Patient_ID`,
which is not a member of the dimension's columns; and on `c1SentinelDf`
the id-column pass produces the dimension `DimUnknown`, whose name
contains the `unknown` sentinel (the generator's own sentinel test,
`'unknown' in dim_name.lower()` at line 5159, matches it). -/
theorem c1_counterexample :
    (¬ (∀ p ∈ (create_fallback_analysis c1CounterexampleDf).dimensions,
        p.2.primary_key ∈ p.2.columns)) ∧
      (¬ (∀ p ∈ (create_fallback_analysis c1SentinelDf).dimensions,
        inLower "unknown" p.1 = false)) := by
  refine ⟨by decide, by decide⟩

/-- Witness for C1's theorem at a concrete DataFrame. -/
theorem c1_witness :
    (("DimPatient", (⟨["Patient_ID", "Patient_Name"], "Patient_ID"⟩ : DimInfo)) ∈
        (create_fallback_analysis
          [⟨"Patient_ID", PdKind.obj⟩, ⟨"Patient_Name", PdKind.obj⟩,
           ⟨"Amount", PdKind.num⟩]).dimensions) ∧
      ("Patient_ID" ∈ (["Patient_ID", "Patient_Name"] : List String) ∨
        "Patient_ID" ∈ idColumns
          [⟨"Patient_ID", PdKind.obj⟩, ⟨"Patient_Name", PdKind.obj⟩,
           ⟨"Amount", PdKind.num⟩]) :=
  ⟨by decide,
    ((fallback_analysis_dimension_invariants
      [⟨"Patient_ID", PdKind.obj⟩, ⟨"Patient_Name", PdKind.obj⟩,
       ⟨"Amount", PdKind.num⟩]).1
      ("DimPatient", ⟨["Patient_ID", "Patient_Name"], "Patient_ID"⟩) (by decide)).1⟩

/-- C8 (amended): every foreign-key entry of the fallback analysis maps
a key that occurs among the DataFrame's columns — the source checks
membership in the full column list, not in the fact table's columns — to
the name of a dimension present in the analysis. -/
theorem fallback_analysis_foreign_keys_sound (df : List DfCol) :
    ∀ q ∈ (create_fallback_analysis df).foreign_keys,
      q.2 ∈ dictKeys (create_fallback_analysis df).dimensions ∧
        q.1 ∈ df.map DfCol.name := by
  intro q hq
  have hsub : ∀ q2 : String × String,
      q2 ∈ foreignKeysOf (df.map DfCol.name) (analysisDims2 df) [] →
      q2.2 ∈ dictKeys (analysisDims2 df) ∧ q2.1 ∈ df.map DfCol.name := by
    intro q2 hq2
    rcases foreignKeysOf_mem _ _ _ q2 hq2 with h | h
    · cases h
    · obtain ⟨p, hp1, hp2, hp3⟩ := h
      refine ⟨?_, hp3⟩
      rw [hp2]
      exact List.mem_map_of_mem Prod.fst hp1
  have hdims2to3 : ∀ n, n ∈ dictKeys (analysisDims2 df) →
      n ∈ dictKeys (analysisDims3 df) := by
    intro n hn
    simp only [analysisDims3]
    split
    · rcases hic : idColumns df with _ | ⟨first_id, rest⟩
      · exact hn
      · exact mem_dictKeys_dictInsert_of_mem _ _ hn
    · exact hn
  simp only [create_fallback_analysis, analysisFK] at hq ⊢
  split at hq
  case isTrue hcond =>
    rcases hic : idColumns df with _ | ⟨first_id, rest⟩
    · rw [hic] at hq
      obtain ⟨h1, h2⟩ := hsub q hq
      exact ⟨hdims2to3 _ h1, h2⟩
    · rw [hic] at hq
      rcases mem_dictInsert hq with h | h
      · obtain ⟨h1, h2⟩ := hsub q h
        exact ⟨hdims2to3 _ h1, h2⟩
      · have hfid : first_id ∈ idColumns df := by
          rw [hic]
          exact List.mem_cons_self _ _
        refine ⟨?_, ?_⟩
        · rw [h]
          rw [hic] at hcond
          simp only [analysisDims3, hic, if_pos hcond]
          exact mem_dictKeys_dictInsert_self _ _ _
        · rw [h]
          exact List.mem_of_mem_filter
            (p := fun col => inLower "id" col && endsLower "_id" col) hfid
  case isFalse hcond =>
    obtain ⟨h1, h2⟩ := hsub q hq
    exact ⟨hdims2to3 _ h1, h2⟩

/-- The DataFrame refuting C8 as stated: a textual `Patient_ID` is
absorbed into `DimPatient`, so it is not a fact column, yet the
foreign-key map still records it (the code checks the full column list). -/
def c8CounterexampleDf : List DfCol :=
  [⟨"Patient_ID", PdKind.obj⟩, ⟨"Patient_Name", PdKind.obj⟩, ⟨"Amount", PdKind.num⟩]

/-- C8 counterexample: a foreign-key entry whose key is not among the
fact table's declared columns. -/
theorem c8_counterexample :
    ¬ (∀ q ∈ (create_fallback_analysis c8CounterexampleDf).foreign_keys,
        q.1 ∈ (create_fallback_analysis c8CounterexampleDf).fact_columns) := by
  decide

/-- Witness for C8's theorem at a concrete DataFrame. -/
theorem c8_witness :
    (("Visit_Date_Desc", "DimDate") ∈
        (create_fallback_analysis
          [⟨"Visit_ID", PdKind.num⟩, ⟨"Visit_Date_Desc", PdKind.obj⟩]).foreign_keys) ∧
      ("DimDate" ∈ dictKeys (create_fallback_analysis
          [⟨"Visit_ID", PdKind.num⟩, ⟨"Visit_Date_Desc", PdKind.obj⟩]).dimensions ∧
        "Visit_Date_Desc" ∈ ([⟨"Visit_ID", PdKind.num⟩,
          ⟨"Visit_Date_Desc", PdKind.obj⟩] : List DfCol).map DfCol.name) :=
  ⟨by decide,
    fallback_analysis_foreign_keys_sound
      [⟨"Visit_ID", PdKind.num⟩, ⟨"Visit_Date_Desc", PdKind.obj⟩]
      ("Visit_Date_Desc", "DimDate") (by decide)⟩

/-! ## C2: the bounded regeneration loop -/

theorem regenLoopFrom_spec (gen : Nat → AttemptOut) (maxRetries : Nat) :
    ∀ (fuel attempt : Nat), maxRetries - attempt = fuel → attempt < maxRetries →
      ∃ out, regenLoopFrom gen maxRetries attempt = some out ∧
        attempt < out.attempt_count ∧
        out.attempt_count ≤ maxRetries ∧
        out.code = (gen (out.attempt_count - 1)).code ∧
        out.validation_result = (gen (out.attempt_count - 1)).verdict ∧
        out.final_validation_status = (gen (out.attempt_count - 1)).verdict.is_valid ∧
        (∀ j, attempt ≤ j → j < out.attempt_count - 1 → (gen j).verdict.is_valid = false) ∧
        (out.final_validation_status = false → out.attempt_count = maxRetries) := by
  intro fuel
  induction fuel with
  | zero =>
    intro attempt hfuel hlt
    omega
  | succ n ih =>
    intro attempt hfuel hlt
    rw [regenLoopFrom]
    rw [dif_pos hlt]
    by_cases hv : (gen attempt).verdict.is_valid
    · refine ⟨⟨(gen attempt).code, (gen attempt).verdict, attempt + 1, true⟩,
        by simp [hv], ?_⟩
      simp only
      refine ⟨Nat.lt_succ_self _, hlt, by simp, by simp, by simp [hv], ?_, by simp⟩
      intro j hj1 hj2
      omega
    · by_cases hlast : attempt < maxRetries - 1
      · have hlt2 : attempt + 1 < maxRetries := by omega
        obtain ⟨out, hout, h1, h2, h3, h4, h5, h6, h7⟩ :=
          ih (attempt + 1) (by omega) hlt2
        refine ⟨out, ?_, by omega, h2, h3, h4, h5, ?_, h7⟩
        · simp only [if_neg hv, if_pos hlast]
          exact hout
        · intro j hj1 hj2
          by_cases hj : j = attempt
          · rw [hj]
            simpa using hv
          · exact h6 j (by omega) hj2
      · have hattempt : attempt = maxRetries - 1 := by omega
        refine ⟨⟨(gen attempt).code, (gen attempt).verdict, attempt + 1, false⟩,
          by simp [hv, hlast], ?_⟩
        simp only
        refine ⟨Nat.lt_succ_self _, by omega, by simp, by simp, ?_, ?_, by intro; omega⟩
        · simp only [Nat.add_sub_cancel]
          exact (Bool.not_eq_true _ ▸ hv).symm ▸ rfl
        · intro j hj1 hj2
          omega

/-- C2: the regeneration loop runs at most `maxRetries` generate→validate
attempts (the source fixes `max_retries = 2`); it returns — as an ordinary
value, never by raising — as soon as a verdict passes, with that attempt's
code, verdict and 1-based attempt count, every earlier attempt having
failed; and when every attempt fails it returns the last attempt's code
together with its failing verdict and `attempt_count = maxRetries`. -/
theorem regeneration_loop_bounded_and_returns (gen : Nat → AttemptOut)
    (maxRetries : Nat) (hpos : 1 ≤ maxRetries) :
    ∃ out, generate_python_sdk_code_loop gen maxRetries = some out ∧
      1 ≤ out.attempt_count ∧
      out.attempt_count ≤ maxRetries ∧
      out.code = (gen (out.attempt_count - 1)).code ∧
      out.validation_result = (gen (out.attempt_count - 1)).verdict ∧
      out.final_validation_status = (gen (out.attempt_count - 1)).verdict.is_valid ∧
      (∀ j, j < out.attempt_count - 1 → (gen j).verdict.is_valid = false) ∧
      ((gen (out.attempt_count - 1)).verdict.is_valid = false →
        out.attempt_count = maxRetries) := by
  obtain ⟨out, hout, h1, h2, h3, h4, h5, h6, h7⟩ :=
    regenLoopFrom_spec gen maxRetries maxRetries 0 (by omega) (by omega)
  exact ⟨out, hout, h1, h2, h3, h4, h5, fun j hj => h6 j (Nat.zero_le j) hj,
    fun hfail => h7 (by rw [h5, hfail])⟩

/-- Witness for C2: two attempts, the first failing, the second passing. -/
theorem c2_witness :
    (1 ≤ 2) ∧
      (∃ out, generate_python_sdk_code_loop
          (fun i => if i = 0 then ⟨"bad", ⟨false, ["issue"]⟩⟩ else ⟨"good", ⟨true, []⟩⟩)
          2 = some out ∧
        1 ≤ out.attempt_count ∧
        out.attempt_count ≤ 2 ∧
        out.code = ((fun i => if i = 0 then
            (⟨"bad", ⟨false, ["issue"]⟩⟩ : AttemptOut)
          else ⟨"good", ⟨true, []⟩⟩) (out.attempt_count - 1)).code ∧
        out.validation_result = ((fun i => if i = 0 then
            (⟨"bad", ⟨false, ["issue"]⟩⟩ : AttemptOut)
          else ⟨"good", ⟨true, []⟩⟩) (out.attempt_count - 1)).verdict ∧
        out.final_validation_status = ((fun i => if i = 0 then
            (⟨"bad", ⟨false, ["issue"]⟩⟩ : AttemptOut)
          else ⟨"good", ⟨true, []⟩⟩) (out.attempt_count - 1)).verdict.is_valid ∧
        (∀ j, j < out.attempt_count - 1 →
          (((fun i => if i = 0 then (⟨"bad", ⟨false, ["issue"]⟩⟩ : AttemptOut)
            else ⟨"good", ⟨true, []⟩⟩) j).verdict.is_valid = false)) ∧
        (((fun i => if i = 0 then (⟨"bad", ⟨false, ["issue"]⟩⟩ : AttemptOut)
            else ⟨"good", ⟨true, []⟩⟩) (out.attempt_count - 1)).verdict.is_valid = false →
          out.attempt_count = 2)) :=
  ⟨by decide,
    regeneration_loop_bounded_and_returns
      (fun i => if i = 0 then ⟨"bad", ⟨false, ["issue"]⟩⟩ else ⟨"good", ⟨true, []⟩⟩)
      2 (by decide)⟩

/-! ## C3 and C10: the validator pre-checks -/

theorem isEmpty_false_of_mem {α : Type} {l : List α} {a : α} (h : a ∈ l) :
    l.isEmpty = false := by
  cases l with
  | nil => cases h
  | cons x xs => rfl

theorem anySuffix_exists {p : List Char → Bool} :
    ∀ {l : List Char}, anySuffix p l = true → ∃ s, s <:+ l ∧ p s = true := by
  intro l
  induction l with
  | nil =>
    intro h
    exact ⟨[], List.suffix_refl _, by simpa [anySuffix] using h⟩
  | cons c tl ih =>
    intro h
    simp only [anySuffix, Bool.or_eq_true] at h
    rcases h with h | h
    · exact ⟨c :: tl, List.suffix_refl _, h⟩
    · obtain ⟨s, hs, hp⟩ := ih h
      exact ⟨s, hs.trans (List.suffix_cons c tl), hp⟩

theorem emptyDeriveAt_head {s : List Char} (h : emptyDeriveAt s = true) :
    ∃ c r, s = c :: r ∧ isPyWs c = false := by
  unfold emptyDeriveAt at h
  cases s with
  | nil => simp [ciPrefix] at h
  | cons c r =>
    refine ⟨c, r, rfl, ?_⟩
    by_contra hws
    simp only [Bool.not_eq_false] at hws
    simp only [isPyWs, Bool.or_eq_true, decide_eq_true_eq] at hws
    have hcd : ¬ c.toLower = 'd'.toLower := by
      rcases hws with ((((rfl | rfl) | rfl) | rfl) | rfl) | rfl <;> decide
    rw [show ("derive".data) = 'd' :: "erive".data from rfl] at h
    simp only [ciPrefix, if_neg hcd] at h
    exact absurd h (by decide)

theorem mem_dropWhile_of_mem {l : List Char} {c : Char} (hc : c ∈ l)
    (hws : isPyWs c = false) : c ∈ l.dropWhile isPyWs := by
  have hsplit : l.takeWhile isPyWs ++ l.dropWhile isPyWs = l :=
    List.takeWhile_append_dropWhile isPyWs l
  rw [← hsplit] at hc
  rcases List.mem_append.mp hc with h | h
  · have := List.mem_takeWhile_imp h
    rw [hws] at this
    cases this
  · exact h

theorem pyStrip_ne_nil_of_mem {l : List Char} {c : Char} (hc : c ∈ l)
    (hws : isPyWs c = false) : (pyStrip l).isEmpty = false := by
  have h1 : c ∈ l.dropWhile isPyWs := mem_dropWhile_of_mem hc hws
  have h2 : c ∈ (l.dropWhile isPyWs).reverse := List.mem_reverse.mpr h1
  have h3 : c ∈ (l.dropWhile isPyWs).reverse.dropWhile isPyWs :=
    mem_dropWhile_of_mem h2 hws
  have h4 : c ∈ pyStrip l := List.mem_reverse.mpr h3
  cases hstrip : pyStrip l with
  | nil => rw [hstrip] at h4; cases h4
  | cons a b => simp

theorem append_ne_of_take {t s : String} (a : String) (k : Nat)
    (hk : k ≤ t.data.length) (hne : t.data.take k ≠ s.data.take k) :
    t ++ a ≠ s := by
  intro h
  apply hne
  have h2 : t.data ++ a.data = s.data := by
    rw [← String.data_append, h]
  rw [← h2, List.take_append_of_le_length hk]

theorem sqlTypeIssue_ne_emptyDerive (t : String) : sqlTypeIssue t ≠ emptyDeriveIssue := by
  unfold sqlTypeIssue
  apply append_ne_of_take _ 10
  · rw [String.data_append, List.length_append]
    have h10 : ("SQL type '".data).length = 10 := by decide
    omega
  · rw [String.data_append, List.take_append_of_le_length (by decide)]
    decide

theorem syntaxErrorIssue_ne_emptyDerive (e : String) :
    syntaxErrorIssue e ≠ emptyDeriveIssue := by
  unfold syntaxErrorIssue
  apply append_ne_of_take _ 10
  · decide
  · decide

theorem emptyDerive_notin_deployIssues (code : List Char) :
    emptyDeriveIssue ∉ deployIssues code := by
  unfold deployIssues
  split
  · intro hmem
    rcases List.mem_append.mp hmem with h | h
    · split at h
      · cases h
      · rw [List.mem_singleton] at h
        exact absurd h (by decide)
    · split at h
      · cases h
      · rw [List.mem_singleton] at h
        exact absurd h (by decide)
  · intro hmem
    rw [List.mem_singleton] at hmem
    exact absurd hmem (by decide)

/-- C3: when the validator runs (client present) on code containing an
empty `derive()` chained into a next node, the verdict fails and the
issues list identifies the empty-derive defect exactly once (other
pre-checks may contribute further, distinct issues). -/
theorem empty_derive_flagged (pySyntaxError : Option String)
    (sqlCastTypes : List String) (aiVerdict : ValidationResult) (code : String)
    (h : hasEmptyDerive code.data = true) :
    (validate_generated_code true pySyntaxError sqlCastTypes aiVerdict code).is_valid
        = false ∧
      (validate_generated_code true pySyntaxError sqlCastTypes aiVerdict code).issues.count
        emptyDeriveIssue = 1 := by
  have hstrip : (pyStrip code.data).isEmpty = false := by
    obtain ⟨s, hs, hp⟩ := anySuffix_exists h
    obtain ⟨c, r, hsr, hws⟩ := emptyDeriveAt_head hp
    exact pyStrip_ne_nil_of_mem (hs.subset (hsr ▸ List.mem_cons_self c r)) hws
  have hm : emptyDeriveIssue ∈ preCheckIssues pySyntaxError sqlCastTypes code.data := by
    simp [preCheckIssues, deriveIssues, h]
  have hne := isEmpty_false_of_mem hm
  have hresult : validate_generated_code true pySyntaxError sqlCastTypes aiVerdict code =
      ⟨false, preCheckIssues pySyntaxError sqlCastTypes code.data⟩ := by
    unfold validate_generated_code
    simp only [hstrip, hne, Bool.not_true, Bool.not_false, Bool.false_eq_true,
      if_false, if_true]
  have hdep : (deployIssues code.data).count emptyDeriveIssue = 0 :=
    List.count_eq_zero.mpr (emptyDerive_notin_deployIssues code.data)
  have hsql : (sqlCastTypes.map sqlTypeIssue).count emptyDeriveIssue = 0 := by
    refine List.count_eq_zero.mpr ?_
    intro hmem
    obtain ⟨t, _, ht⟩ := List.mem_map.mp hmem
    exact sqlTypeIssue_ne_emptyDerive t ht
  have hsyn : (syntaxIssues pySyntaxError).count emptyDeriveIssue = 0 := by
    cases pySyntaxError with
    | none => rfl
    | some e =>
      refine List.count_eq_zero.mpr ?_
      intro hmem
      rw [syntaxIssues, List.mem_singleton] at hmem
      exact syntaxErrorIssue_ne_emptyDerive e hmem.symm
  have hload : (loadIssues code.data).count emptyDeriveIssue = 0 := by
    rw [loadIssues]
    split
    · refine List.count_eq_zero.mpr ?_
      intro hmem
      rw [List.mem_singleton] at hmem
      exact absurd hmem (by decide)
    · rfl
  have hder : (deriveIssues code.data).count emptyDeriveIssue = 1 := by
    rw [deriveIssues, if_pos h]
    decide
  rw [hresult]
  refine ⟨rfl, ?_⟩
  simp only [preCheckIssues, List.count_append]
  rw [hdep, hsql, hsyn, hload, hder]

/-- Witness for C3 at a concrete code fragment. -/
theorem c3_witness :
    hasEmptyDerive ("x derive() ~> Next").data = true ∧
      ((validate_generated_code true none [] ⟨true, []⟩ "x derive() ~> Next").is_valid
          = false ∧
        (validate_generated_code true none [] ⟨true, []⟩
          "x derive() ~> Next").issues.count emptyDeriveIssue = 1) :=
  ⟨by decide, empty_derive_flagged none [] ⟨true, []⟩ "x derive() ~> Next" (by decide)⟩

/-- C10: with the text-generation client absent, `validate_generated_code`
returns a passing verdict with no issues for every code string, whatever
the outcomes of the structural checks would have been. -/
theorem validate_skipped_without_client (pySyntaxError : Option String)
    (sqlCastTypes : List String) (aiVerdict : ValidationResult) (code : String) :
    (validate_generated_code false pySyntaxError sqlCastTypes aiVerdict code).is_valid
        = true ∧
      (validate_generated_code false pySyntaxError sqlCastTypes aiVerdict code).issues
        = [] :=
  ⟨rfl, rfl⟩

/-! ## C7: dimension-name normalization and the `unknown` drop -/

theorem mem_of_mem_dictKeys_dictInsert {α : Type} {d : List (String × α)}
    {k n : String} {v : α} (h : n ∈ dictKeys (dictInsert d k v)) :
    n ∈ dictKeys d ∨ n = k := by
  rw [dictKeys_dictInsert] at h
  by_cases hmem : k ∈ dictKeys d
  · rw [if_pos hmem] at h
    exact Or.inl h
  · rw [if_neg hmem] at h
    rcases List.mem_append.mp h with h2 | h2
    · exact Or.inl h2
    · exact Or.inr (List.mem_singleton.mp h2)

theorem startsLower_dim_append (x : String) :
    startsLower "dim" ("Dim" ++ x) = true := by
  unfold startsLower lowerChars
  rw [String.data_append, List.map_append]
  rw [show (("Dim".data).map Char.toLower) = "dim".data from rfl]
  exact List.isPrefixOf_iff_prefix.mpr (List.prefix_append _ _)

theorem normalize_foldl_keys_mono :
    ∀ (dims : List (String × DimInfo)) (acc : List (String × DimInfo)) (n : String),
      n ∈ dictKeys acc → n ∈ dictKeys (dims.foldl normStep acc) := by
  intro dims
  induction dims with
  | nil => intro acc n hn; simpa using hn
  | cons q rest ih =>
    intro acc n hn
    simp only [List.foldl_cons]
    exact ih _ n (mem_dictKeys_dictInsert_of_mem _ _ hn)

theorem normalize_foldl_keys_dim :
    ∀ (dims : List (String × DimInfo)) (acc : List (String × DimInfo)),
      (∀ n ∈ dictKeys acc, startsLower "dim" n = true) →
      ∀ n ∈ dictKeys (dims.foldl normStep acc), startsLower "dim" n = true := by
  intro dims
  induction dims with
  | nil => intro acc hacc n hn; exact hacc n (by simpa using hn)
  | cons q rest ih =>
    intro acc hacc n hn
    simp only [List.foldl_cons] at hn
    refine ih _ ?_ n hn
    intro m hm
    rcases mem_of_mem_dictKeys_dictInsert hm with h | h
    · exact hacc m h
    · rw [h]
      by_cases hq : startsLower "dim" q.1 = true
      · rw [if_pos hq]
        exact hq
      · rw [if_neg hq]
        exact startsLower_dim_append q.1

theorem normalize_foldl_coerced_mem :
    ∀ (dims : List (String × DimInfo)) (acc : List (String × DimInfo))
      (p : String × DimInfo), p ∈ dims →
      (if startsLower "dim" p.1 then p.1 else "Dim" ++ p.1) ∈
        dictKeys (dims.foldl normStep acc) := by
  intro dims
  induction dims with
  | nil => intro acc p hp; cases hp
  | cons q rest ih =>
    intro acc p hp
    simp only [List.foldl_cons]
    rcases List.mem_cons.mp hp with h | h
    · subst h
      refine normalize_foldl_keys_mono rest _ _ ?_
      simp only [normStep]
      exact mem_dictKeys_dictInsert_self _ _ _
    · exact ih _ p h

/-- C7 (amended): the normalizer prefixes `Dim` to every dimension name
that does not already start with `dim` in some letter case (so every
normalized name starts with `dim` case-insensitively, but a lower-case
`dimfoo` is kept verbatim rather than coerced to the capitalized `Dim`
spelling), and it keeps names containing `unknown`; the drop happens in
the transform-graph generator, where a dimension whose name contains
`unknown` contributes no script node at all. -/
theorem normalization_and_unknown_drop :
    (∀ (dims : List (String × DimInfo)),
      ∀ n ∈ dictKeys (normalize_dimensions dims), startsLower "dim" n = true) ∧
      (∀ (dims : List (String × DimInfo)) (p : String × DimInfo), p ∈ dims →
        startsLower "dim" p.1 = false →
        ("Dim" ++ p.1) ∈ dictKeys (normalize_dimensions dims)) ∧
      (∀ (dims : List (String × DimInfo)) (p : String × DimInfo), p ∈ dims →
        startsLower "dim" p.1 = true →
        p.1 ∈ dictKeys (normalize_dimensions dims)) ∧
      (∀ (column_types : List (String × ColType)) (context_keyword dim_name : String)
        (dim_info : DimInfo), inLower "unknown" dim_name = true →
        dimChain column_types context_keyword dim_name dim_info = []) := by
  refine ⟨?_, ?_, ?_, ?_⟩
  · intro dims n hn
    exact normalize_foldl_keys_dim dims [] (by simp [dictKeys]) n hn
  · intro dims p hp hlow
    have := normalize_foldl_coerced_mem dims [] p hp
    rw [if_neg (by rw [hlow]; exact Bool.false_ne_true)] at this
    exact this
  · intro dims p hp hlow
    have := normalize_foldl_coerced_mem dims [] p hp
    rw [if_pos hlow] at this
    exact this
  · intro column_types context_keyword dim_name dim_info hunknown
    unfold dimChain
    rw [if_pos (by simp [dimSkipped, hunknown])]

/-- The input refuting C7 as stated: a dimension named `dimunknown_x`
already starts with `dim` (so it is not coerced to carry the capitalized
`Dim` prefix) and contains `unknown`, yet survives normalization. -/
theorem c7_counterexample :
    ¬ (∀ p ∈ normalize_dimensions
        [("dimunknown_x", (⟨["A"], "A"⟩ : DimInfo))],
        inLower "unknown" p.1 = false) := by
  decide

/-- Witness for C7's theorem at concrete inputs. -/
theorem c7_witness :
    (("Customer", (⟨["CustomerID"], "CustomerID"⟩ : DimInfo)) ∈
        ([("Customer", ⟨["CustomerID"], "CustomerID"⟩)] : List (String × DimInfo))) ∧
      startsLower "dim" "Customer" = false ∧
      ("DimCustomer" ∈ dictKeys (normalize_dimensions
        [("Customer", ⟨["CustomerID"], "CustomerID"⟩)])) ∧
      inLower "unknown" "DimUnknown" = true ∧
      dimChain [] "Data" "DimUnknown" ⟨["A"], "A"⟩ = [] :=
  ⟨by decide, by decide,
    normalization_and_unknown_drop.2.1
      [("Customer", ⟨["CustomerID"], "CustomerID"⟩)]
      ("Customer", ⟨["CustomerID"], "CustomerID"⟩) (by decide) (by decide),
    by decide,
    normalization_and_unknown_drop.2.2.2 [] "Data" "DimUnknown" ⟨["A"], "A"⟩ (by decide)⟩

/-! ## C4: the aggregate step of a dimension chain -/

theorem count_map_eq_countP {α β : Type} [DecidableEq β] (f : α → β) (l : List α)
    (b : β) : (l.map f).count b = l.countP (fun a => f a == b) := by
  induction l with
  | nil => rfl
  | cons x xs ih => simp [List.count_cons, List.countP_cons, ih]

theorem dimChain_eq_of_not_skipped (column_types : List (String × ColType))
    (context_keyword dim_name : String) (dim_info : DimInfo)
    (hskip : dimSkipped dim_name dim_info.columns = false) :
    dimChain column_types context_keyword dim_name dim_info =
      [ScriptPart.selectPart dim_name (dim_info.columns.map cleanCol),
       ScriptPart.aggregatePart dim_name (dimPkClean dim_info) (dimAggTargets dim_info)] ++
        (if dimCastUsed column_types context_keyword dim_name dim_info.columns then
          [ScriptPart.castPart dim_name ("Aggregate" ++ dim_name)
            (dimCastCols column_types (isHealthcareDim context_keyword) dim_name
              dim_info.columns)]
        else []) ++
        (if dimDeriveUsed column_types context_keyword dim_name dim_info.columns then
          [ScriptPart.derivePart dim_name ("Aggregate" ++ dim_name)
            (dimDeriveCols dim_info.columns)]
        else []) ++
        [ScriptPart.sinkPart dim_name
          (dimFinal column_types context_keyword dim_name dim_info.columns)] := by
  unfold dimChain
  rw [if_neg (by rw [hskip]; exact Bool.false_ne_true)]

/-- C4: for a dimension with nonempty primary key P belonging to its
columns, whose cleaned column names are distinct, the emitted aggregate
node groups by the cleaned P, lists exactly the dimension's other columns
(cleaned) as first(...) targets — each exactly once — never lists P, and
is the only aggregate node of the chain. -/
theorem aggregate_step_excludes_key (column_types : List (String × ColType))
    (context_keyword dim_name : String) (dim_info : DimInfo)
    (hskip : dimSkipped dim_name dim_info.columns = false)
    (hne : dim_info.primary_key ≠ "")
    (hmem : dim_info.primary_key ∈ dim_info.columns)
    (hclean : (dim_info.columns.map cleanCol).Nodup) :
    ScriptPart.aggregatePart dim_name (cleanCol dim_info.primary_key)
        ((dim_info.columns.filter fun c => c ≠ dim_info.primary_key).map cleanCol) ∈
        dimChain column_types context_keyword dim_name dim_info ∧
      (dimChain column_types context_keyword dim_name dim_info).countP
          isAggregatePart = 1 ∧
      cleanCol dim_info.primary_key ∉
        ((dim_info.columns.filter fun c => c ≠ dim_info.primary_key).map cleanCol) ∧
      ∀ c ∈ dim_info.columns, c ≠ dim_info.primary_key →
        ((dim_info.columns.filter fun c2 => c2 ≠ dim_info.primary_key).map
          cleanCol).count (cleanCol c) = 1 := by
  have heff : effectivePk dim_info.columns dim_info.primary_key =
      dim_info.primary_key := by
    unfold effectivePk
    rw [if_neg hne]
  have htargets : dimAggTargets dim_info =
      (dim_info.columns.filter fun c => c ≠ dim_info.primary_key).map cleanCol := by
    unfold dimAggTargets
    rw [heff]
    show List.map cleanCol
        (List.filter (fun col => decide (dim_info.primary_key = "") ||
          decide (col ≠ dim_info.primary_key)) dim_info.columns) =
      List.map cleanCol (List.filter (fun c => decide (c ≠ dim_info.primary_key))
        dim_info.columns)
    congr 1
    apply List.filter_congr
    intro c _
    rw [decide_eq_false hne, Bool.false_or]
  have hpkclean : dimPkClean dim_info = cleanCol dim_info.primary_key := by
    unfold dimPkClean
    rw [heff]
    show (if dim_info.primary_key = "" then cleanCol dim_info.columns.headI
      else cleanCol dim_info.primary_key) = cleanCol dim_info.primary_key
    rw [if_neg hne]
  have hinj := List.inj_on_of_nodup_map hclean
  have hchain := dimChain_eq_of_not_skipped column_types context_keyword dim_name
    dim_info hskip
  refine ⟨?_, ?_, ?_, ?_⟩
  · rw [hchain, ← htargets, ← hpkclean]
    exact List.mem_append.mpr (Or.inl (by simp))
  · rw [hchain]
    by_cases h1 : dimCastUsed column_types context_keyword dim_name dim_info.columns
        = true <;>
      by_cases h2 : dimDeriveUsed column_types context_keyword dim_name
          dim_info.columns = true <;>
      simp [h1, h2, List.countP_append, List.countP_cons, isAggregatePart]
  · intro hmem2
    obtain ⟨c, hc1, hc2⟩ := List.mem_map.mp hmem2
    have hc3 := List.mem_of_mem_filter hc1
    have hcne : c ≠ dim_info.primary_key := by
      simpa using List.of_mem_filter hc1
    exact hcne (hinj hc3 hmem hc2)
  · intro c hc hcne
    rw [count_map_eq_countP]
    have hcongr : List.countP (fun a => cleanCol a == cleanCol c)
        (dim_info.columns.filter fun c2 => c2 ≠ dim_info.primary_key) =
        List.countP (fun a => a == c)
          (dim_info.columns.filter fun c2 => c2 ≠ dim_info.primary_key) := by
      apply List.countP_congr
      intro a ha
      have ha2 := List.mem_of_mem_filter ha
      by_cases hac : a = c
      · simp [hac]
      · have : ¬ cleanCol a = cleanCol c := fun h => hac (hinj ha2 hc h)
        simp [hac, this]
    rw [hcongr]
    have hnd : (dim_info.columns.filter fun c2 => c2 ≠ dim_info.primary_key).Nodup :=
      (List.Nodup.of_map cleanCol hclean).filter _
    have hcmem : c ∈ dim_info.columns.filter fun c2 => c2 ≠ dim_info.primary_key :=
      List.mem_filter.mpr ⟨hc, by simpa using hcne⟩
    have := List.count_eq_one_of_mem hnd hcmem
    simpa [List.count] using this

/-- Witness for C4 at the spec's own scenario-2 dimension. -/
theorem c4_witness :
    dimSkipped "DimCustomer" (["CustomerID", "Name", "Phone"] : List String) = false ∧
      ("CustomerID" : String) ≠ "" ∧
      "CustomerID" ∈ (["CustomerID", "Name", "Phone"] : List String) ∧
      ((["CustomerID", "Name", "Phone"] : List String).map cleanCol).Nodup ∧
      (ScriptPart.aggregatePart "DimCustomer" (cleanCol "CustomerID")
          (((["CustomerID", "Name", "Phone"] : List String).filter
            fun c => c ≠ "CustomerID").map cleanCol) ∈
        dimChain [] "Data" "DimCustomer" ⟨["CustomerID", "Name", "Phone"], "CustomerID"⟩) :=
  ⟨by decide, by decide, by decide, by decide,
    (aggregate_step_excludes_key [] "Data" "DimCustomer"
      ⟨["CustomerID", "Name", "Phone"], "CustomerID"⟩
      (by decide) (by decide) (by decide) (by decide)).1⟩

/-! ## C5: exact node counts of the generated script -/

theorem dimChain_eq_nil_of_skipped (column_types : List (String × ColType))
    (context_keyword dim_name : String) (dim_info : DimInfo)
    (hskip : dimSkipped dim_name dim_info.columns = true) :
    dimChain column_types context_keyword dim_name dim_info = [] := by
  unfold dimChain
  rw [if_pos hskip]

theorem dimChain_counts (column_types : List (String × ColType))
    (context_keyword dim_name : String) (dim_info : DimInfo)
    (hskip : dimSkipped dim_name dim_info.columns = false) :
    (dimChain column_types context_keyword dim_name dim_info).countP isSelectPart = 1 ∧
      (dimChain column_types context_keyword dim_name dim_info).countP
        isAggregatePart = 1 ∧
      (dimChain column_types context_keyword dim_name dim_info).countP isSinkPart = 1 := by
  rw [dimChain_eq_of_not_skipped column_types context_keyword dim_name dim_info hskip]
  refine ⟨?_, ?_, ?_⟩ <;>
    (by_cases h1 : dimCastUsed column_types context_keyword dim_name dim_info.columns
        = true <;>
      by_cases h2 : dimDeriveUsed column_types context_keyword dim_name
          dim_info.columns = true <;>
      simp [h1, h2, List.countP_append, List.countP_cons, isSelectPart,
        isAggregatePart, isSinkPart])

theorem factChain_counts (column_types : List (String × ColType))
    (context_keyword : String) (fact_columns : List String)
    (fact_tables : List (String × String)) (hfc : fact_columns ≠ [])
    (hft : fact_tables ≠ []) :
    (factChain column_types context_keyword fact_columns fact_tables).countP
        isSelectPart = 1 ∧
      (factChain column_types context_keyword fact_columns fact_tables).countP
        isAggregatePart = 0 ∧
      (factChain column_types context_keyword fact_columns fact_tables).countP
        isSinkPart = 1 := by
  rcases fact_columns with _ | ⟨c0, cs⟩
  · exact absurd rfl hfc
  · rcases fact_tables with _ | ⟨⟨table, schema⟩, ts⟩
    · exact absurd rfl hft
    · unfold factChain
      refine ⟨?_, ?_, ?_⟩ <;>
        (by_cases h1 : factCastUsed column_types context_keyword (c0 :: cs) = true <;>
          simp [h1, List.countP_append, List.countP_cons, isSelectPart,
            isAggregatePart, isSinkPart])

theorem dims_section_counts (column_types : List (String × ColType))
    (context_keyword : String) :
    ∀ dims : List (String × DimInfo),
      ((dims.flatMap fun p => dimChain column_types context_keyword p.1 p.2).countP
          isSelectPart =
        (dims.filter fun p => !dimSkipped p.1 p.2.columns).length) ∧
      ((dims.flatMap fun p => dimChain column_types context_keyword p.1 p.2).countP
          isAggregatePart =
        (dims.filter fun p => !dimSkipped p.1 p.2.columns).length) ∧
      ((dims.flatMap fun p => dimChain column_types context_keyword p.1 p.2).countP
          isSinkPart =
        (dims.filter fun p => !dimSkipped p.1 p.2.columns).length) := by
  intro dims
  induction dims with
  | nil => simp
  | cons q rest ih =>
    obtain ⟨ih1, ih2, ih3⟩ := ih
    by_cases hq : dimSkipped q.1 q.2.columns = true
    · have hnil := dimChain_eq_nil_of_skipped column_types context_keyword q.1 q.2 hq
      simp [List.flatMap_cons, List.countP_append, hnil, hq, ih1, ih2, ih3]
    · have hq2 : dimSkipped q.1 q.2.columns = false := by
        simpa using hq
      obtain ⟨hc1, hc2, hc3⟩ :=
        dimChain_counts column_types context_keyword q.1 q.2 hq2
      simp [List.flatMap_cons, List.countP_append, hq2, hc1, hc2, hc3, ih1, ih2, ih3,
        Nat.add_comm]

/-- C5 (amended): with fact columns and a fact table present, the script
has exactly N' + 1 select nodes, N' aggregate nodes and N' + 1 sink
nodes, where N' counts the dimensions that survive the generator's
filters (name free of `unknown` and `unk`, nonempty column list); when
every dimension survives, N' is the number of dimensions, giving the
claim's N + 1 / N / N + 1. -/
theorem transform_script_node_counts (csv_columns fact_columns : List String)
    (dims : List (String × DimInfo)) (column_types : List (String × ColType))
    (fact_tables : List (String × String)) (context_keyword : String)
    (hfc : fact_columns ≠ []) (hft : fact_tables ≠ []) :
    ((generate_transform_dataflow_script csv_columns fact_columns dims column_types
        fact_tables context_keyword).countP isSelectPart =
      (dims.filter fun p => !dimSkipped p.1 p.2.columns).length + 1) ∧
      ((generate_transform_dataflow_script csv_columns fact_columns dims column_types
          fact_tables context_keyword).countP isAggregatePart =
        (dims.filter fun p => !dimSkipped p.1 p.2.columns).length) ∧
      ((generate_transform_dataflow_script csv_columns fact_columns dims column_types
          fact_tables context_keyword).countP isSinkPart =
        (dims.filter fun p => !dimSkipped p.1 p.2.columns).length + 1) ∧
      ((∀ p ∈ dims, dimSkipped p.1 p.2.columns = false) →
        (dims.filter fun p => !dimSkipped p.1 p.2.columns).length = dims.length) := by
  obtain ⟨hd1, hd2, hd3⟩ := dims_section_counts column_types context_keyword dims
  obtain ⟨hf1, hf2, hf3⟩ := factChain_counts column_types context_keyword fact_columns
    fact_tables hfc hft
  have hsrc : ∀ k : ScriptPart → Bool, k (ScriptPart.source (csv_columns.map cleanCol))
      = false →
      ((if csv_columns.isEmpty then ([] : List ScriptPart)
        else [ScriptPart.source (csv_columns.map cleanCol)]).countP k) = 0 := by
    intro k hk
    split
    · rfl
    · simp [List.countP_cons, hk]
  refine ⟨?_, ?_, ?_, ?_⟩
  · simp only [generate_transform_dataflow_script, List.countP_append, hd1, hf1,
      hsrc isSelectPart rfl]
    omega
  · simp only [generate_transform_dataflow_script, List.countP_append, hd2, hf2,
      hsrc isAggregatePart rfl]
    omega
  · simp only [generate_transform_dataflow_script, List.countP_append, hd3, hf3,
      hsrc isSinkPart rfl]
    omega
  · intro hall
    congr 1
    rw [List.filter_eq_self]
    intro p hp
    simp [hall p hp]

/-- The SchemaSplit refuting C5 as stated: `DimTrunk` is a well-formed
dimension (nonempty columns, key among them, no `unknown` sentinel), yet
the generator's `'unk' in dim_name.lower()` filter drops it, so the
script has 1 select node instead of N + 1 = 2. -/
theorem c5_counterexample :
    ¬ ((generate_transform_dataflow_script ["A"] ["Amount"]
        [("DimTrunk", ⟨["Trunk_ID", "Trunk_Name"], "Trunk_ID"⟩)] []
        [("FactVisit", "dbo")] "Data").countP isSelectPart = 1 + 1) := by
  decide

/-- Witness for C5 at a concrete surviving split. -/
theorem c5_witness :
    ((["Amount"] : List String) ≠ []) ∧ (([("FactVisit", "dbo")] :
        List (String × String)) ≠ []) ∧
      ((generate_transform_dataflow_script ["A"] ["Amount"]
          [("DimPatient", ⟨["Patient_ID", "Patient_Name"], "Patient_ID"⟩)] []
          [("FactVisit", "dbo")] "Data").countP isSelectPart =
        (([("DimPatient", (⟨["Patient_ID", "Patient_Name"], "Patient_ID"⟩ : DimInfo))] :
          List (String × DimInfo)).filter
            fun p => !dimSkipped p.1 p.2.columns).length + 1) :=
  ⟨by decide, by decide,
    (transform_script_node_counts ["A"] ["Amount"]
      [("DimPatient", ⟨["Patient_ID", "Patient_Name"], "Patient_ID"⟩)] []
      [("FactVisit", "dbo")] "Data" (by decide) (by decide)).1⟩

/-! ## C9: transformations and sinks are disjoint -/

theorem extractStep_sub {acc : List String} {m n : String} (h : n ∈ extractStep acc m) :
    n ∈ acc ∨ n = m := by
  unfold extractStep at h
  split at h
  · rcases List.mem_append.mp h with h2 | h2
    · exact Or.inl h2
    · exact Or.inr (List.mem_singleton.mp h2)
  · exact Or.inl h

theorem extract_foldl_mono :
    ∀ (ms acc : List String) (n : String), n ∈ acc → n ∈ ms.foldl extractStep acc := by
  intro ms
  induction ms with
  | nil => intro acc n hn; simpa using hn
  | cons m rest ih =>
    intro acc n hn
    simp only [List.foldl_cons]
    refine ih _ n ?_
    unfold extractStep
    split
    · exact List.mem_append.mpr (Or.inl hn)
    · exact hn

theorem extract_foldl_mem :
    ∀ (ms acc : List String) (n : String), n ∈ ms.foldl extractStep acc →
      n ∈ acc ∨ (n ∈ ms ∧ ("Load".data.isPrefixOf n.data) = false ∧
        (["SourceCSV", "StagingSink", "StagingSource"].contains n) = false) := by
  intro ms
  induction ms with
  | nil => intro acc n hn; exact Or.inl (by simpa using hn)
  | cons m rest ih =>
    intro acc n hn
    simp only [List.foldl_cons] at hn
    rcases ih _ n hn with h | h
    · unfold extractStep at h
      split at h
      case isTrue hcond =>
        rcases List.mem_append.mp h with h2 | h2
        · exact Or.inl h2
        · rw [List.mem_singleton] at h2
          subst h2
          simp only [Bool.and_eq_true, Bool.not_eq_true'] at hcond
          exact Or.inr ⟨List.mem_cons_self _ _, hcond.1.1, hcond.1.2⟩
      case isFalse => exact Or.inl h
    · exact Or.inr ⟨List.mem_cons_of_mem _ h.1, h.2⟩

theorem extract_foldl_nodup :
    ∀ (ms acc : List String), acc.Nodup → (ms.foldl extractStep acc).Nodup := by
  intro ms
  induction ms with
  | nil => intro acc h; simpa using h
  | cons m rest ih =>
    intro acc h
    simp only [List.foldl_cons]
    refine ih _ ?_
    unfold extractStep
    split
    case isTrue hcond =>
      simp only [Bool.and_eq_true, Bool.not_eq_true'] at hcond
      have hnm : m ∉ acc := by
        intro hmem
        have hcontains : acc.contains m = true := List.elem_eq_true_of_mem hmem
        rw [hcontains] at hcond
        exact absurd hcond.2 (by decide)
      rw [List.nodup_append]
      exact ⟨h, List.nodup_singleton m, by
        intro x hx hx2
        rw [List.mem_singleton] at hx2
        exact hnm (hx2 ▸ hx)⟩
    case isFalse => exact h

theorem extract_foldl_complete :
    ∀ (ms acc : List String) (n : String), n ∈ ms →
      ("Load".data.isPrefixOf n.data) = false →
      (["SourceCSV", "StagingSink", "StagingSource"].contains n) = false →
      n ∈ ms.foldl extractStep acc := by
  intro ms
  induction ms with
  | nil => intro acc n hn; cases hn
  | cons m rest ih =>
    intro acc n hn hload hexcl
    simp only [List.foldl_cons]
    rcases List.mem_cons.mp hn with h | h
    · subst h
      refine extract_foldl_mono rest _ n ?_
      unfold extractStep
      split
      · exact List.mem_append.mpr (Or.inr (List.mem_singleton.mpr rfl))
      case isFalse hcond =>
        simp only [hload, hexcl, Bool.not_false, Bool.true_and, Bool.not_eq_true',
          Bool.not_eq_false] at hcond
        exact List.mem_of_elem_eq_true hcond
    · exact ih _ n h hload hexcl

theorem contains_eq_false_of_not_mem {l : List String} {a : String} (h : a ∉ l) :
    l.contains a = false := by
  cases hc : l.contains a
  · rfl
  · exact absurd (List.mem_of_elem_eq_true hc) h

theorem not_mem_of_contains_eq_false {l : List String} {a : String}
    (h : l.contains a = false) : a ∉ l := by
  intro hmem
  have h2 : l.contains a = true := List.elem_eq_true_of_mem hmem
  rw [h2] at h
  cases h

theorem append_tag_inj (t : String) {a b : String} (h : t ++ a = t ++ b) : a = b := by
  have h2 : t.data ++ a.data = t.data ++ b.data := by
    rw [← String.data_append, ← String.data_append, h]
  exact String.ext (List.append_cancel_left h2)

theorem append_tag_ne {t1 t2 : String} {c1 c2 : Char} {r1 r2 : List Char}
    (h1 : t1.data = c1 :: r1) (h2 : t2.data = c2 :: r2) (hc : c1 ≠ c2)
    (a b : String) : t1 ++ a ≠ t2 ++ b := by
  intro h
  have hd : t1.data ++ a.data = t2.data ++ b.data := by
    rw [← String.data_append, ← String.data_append, h]
  rw [h1, h2, List.cons_append, List.cons_append, List.cons.injEq] at hd
  exact hc hd.1

theorem load_prefix_append (t : String) :
    ("Load".data.isPrefixOf ("Load" ++ t).data) = true := by
  rw [String.data_append]
  exact List.isPrefixOf_iff_prefix.mpr (List.prefix_append _ _)

theorem not_load_prefix_of_tag {tag : String} {c : Char} {r : List Char}
    (htag : tag.data = c :: r) (hc : c ≠ 'L') (nm : String) :
    ("Load".data.isPrefixOf (tag ++ nm).data) = false := by
  rw [Bool.eq_false_iff]
  intro hpre
  have hp : "Load".data <+: (tag ++ nm).data := List.isPrefixOf_iff_prefix.mp hpre
  obtain ⟨t2, ht2⟩ := hp
  rw [String.data_append, htag] at ht2
  have hL : 'L' = c := by
    have hhead := congrArg (fun l => l.head?) ht2
    simpa using hhead
  exact hc hL.symm

theorem sinkUpstreams_append (l1 l2 : List ScriptPart) :
    sinkUpstreams (l1 ++ l2) = sinkUpstreams l1 ++ sinkUpstreams l2 :=
  List.filterMap_append l1 l2 _

theorem sinkUpstreams_flatMap {α : Type} (f : α → List ScriptPart) :
    ∀ l : List α, sinkUpstreams (l.flatMap f) = l.flatMap fun a => sinkUpstreams (f a) := by
  intro l
  induction l with
  | nil => rfl
  | cons a rest ih =>
    simp only [List.flatMap_cons, sinkUpstreams_append, ih]

theorem scriptNames_append (l1 l2 : List ScriptPart) :
    scriptNames (l1 ++ l2) = scriptNames l1 ++ scriptNames l2 :=
  List.map_append partName l1 l2

theorem dimChain_sinkUpstreams (column_types : List (String × ColType))
    (context_keyword dim_name : String) (dim_info : DimInfo)
    (hskip : dimSkipped dim_name dim_info.columns = false) :
    sinkUpstreams (dimChain column_types context_keyword dim_name dim_info) =
      [dimFinal column_types context_keyword dim_name dim_info.columns] := by
  rw [dimChain_eq_of_not_skipped column_types context_keyword dim_name dim_info hskip]
  by_cases h1 : dimCastUsed column_types context_keyword dim_name dim_info.columns
      = true <;>
    by_cases h2 : dimDeriveUsed column_types context_keyword dim_name
        dim_info.columns = true <;>
    simp [h1, h2, sinkUpstreams, List.filterMap_append, List.filterMap_cons]

theorem dimChain_final_mem_names (column_types : List (String × ColType))
    (context_keyword dim_name : String) (dim_info : DimInfo)
    (hskip : dimSkipped dim_name dim_info.columns = false) :
    dimFinal column_types context_keyword dim_name dim_info.columns ∈
      scriptNames (dimChain column_types context_keyword dim_name dim_info) := by
  rw [dimChain_eq_of_not_skipped column_types context_keyword dim_name dim_info hskip]
  unfold dimFinal
  by_cases h1 : dimCastUsed column_types context_keyword dim_name dim_info.columns
      = true <;>
    by_cases h2 : dimDeriveUsed column_types context_keyword dim_name
        dim_info.columns = true <;>
    simp [h1, h2, scriptNames, partName, List.map_append]

theorem dimFinal_shape (column_types : List (String × ColType))
    (context_keyword dim_name : String) (dim_columns : List String) :
    dimFinal column_types context_keyword dim_name dim_columns
        = "Cast" ++ dim_name ∨
      dimFinal column_types context_keyword dim_name dim_columns
        = "Derive" ++ dim_name ∨
      dimFinal column_types context_keyword dim_name dim_columns
        = "Aggregate" ++ dim_name := by
  unfold dimFinal
  split
  · exact Or.inl rfl
  · split
    · exact Or.inr (Or.inl rfl)
    · exact Or.inr (Or.inr rfl)

theorem dimFinal_eq_imp (column_types : List (String × ColType))
    (context_keyword : String) {nm1 nm2 : String} {cols1 cols2 : List String}
    (h : dimFinal column_types context_keyword nm1 cols1 =
      dimFinal column_types context_keyword nm2 cols2) : nm1 = nm2 := by
  rcases dimFinal_shape column_types context_keyword nm1 cols1 with h1 | h1 | h1 <;>
    rcases dimFinal_shape column_types context_keyword nm2 cols2 with h2 | h2 | h2 <;>
    rw [h1, h2] at h <;>
    first
      | exact append_tag_inj _ h
      | exact absurd h (append_tag_ne rfl rfl (by decide) _ _)

theorem tag_not_excluded {tag : String} (nm : String) (k : Nat)
    (hk : k ≤ tag.data.length)
    (h1 : tag.data.take k ≠ "SourceCSV".data.take k)
    (h2 : tag.data.take k ≠ "StagingSink".data.take k)
    (h3 : tag.data.take k ≠ "StagingSource".data.take k) :
    (["SourceCSV", "StagingSink", "StagingSource"].contains (tag ++ nm)) = false := by
  apply contains_eq_false_of_not_mem
  intro hmem
  simp only [List.mem_cons, List.not_mem_nil, or_false] at hmem
  rcases hmem with h | h | h
  · exact append_ne_of_take nm k hk h1 h
  · exact append_ne_of_take nm k hk h2 h
  · exact append_ne_of_take nm k hk h3 h

theorem keep_cast (nm : String) :
    ("Load".data.isPrefixOf ("Cast" ++ nm).data) = false ∧
      (["SourceCSV", "StagingSink", "StagingSource"].contains ("Cast" ++ nm)) = false :=
  ⟨not_load_prefix_of_tag rfl (by decide) nm,
    tag_not_excluded nm 1 (by decide) (by decide) (by decide) (by decide)⟩

theorem keep_derive (nm : String) :
    ("Load".data.isPrefixOf ("Derive" ++ nm).data) = false ∧
      (["SourceCSV", "StagingSink", "StagingSource"].contains ("Derive" ++ nm)) = false :=
  ⟨not_load_prefix_of_tag rfl (by decide) nm,
    tag_not_excluded nm 1 (by decide) (by decide) (by decide) (by decide)⟩

theorem keep_aggregate (nm : String) :
    ("Load".data.isPrefixOf ("Aggregate" ++ nm).data) = false ∧
      (["SourceCSV", "StagingSink", "StagingSource"].contains ("Aggregate" ++ nm))
        = false :=
  ⟨not_load_prefix_of_tag rfl (by decide) nm,
    tag_not_excluded nm 1 (by decide) (by decide) (by decide) (by decide)⟩

theorem keep_select (nm : String) :
    ("Load".data.isPrefixOf ("Select" ++ nm).data) = false ∧
      (["SourceCSV", "StagingSink", "StagingSource"].contains ("Select" ++ nm)) = false :=
  ⟨not_load_prefix_of_tag rfl (by decide) nm,
    tag_not_excluded nm 2 (by decide) (by decide) (by decide) (by decide)⟩

theorem factChain_sinkUpstreams (column_types : List (String × ColType))
    (context_keyword : String) (c0 : String) (cs : List String)
    (table schema : String) (ts : List (String × String)) :
    sinkUpstreams (factChain column_types context_keyword (c0 :: cs)
        ((table, schema) :: ts)) =
      [if factCastUsed column_types context_keyword (c0 :: cs) then "Cast" ++ table
       else "Select" ++ table] := by
  unfold factChain
  by_cases h1 : factCastUsed column_types context_keyword (c0 :: cs) = true <;>
    simp [h1, sinkUpstreams, List.filterMap_append, List.filterMap_cons]

theorem factChain_final_mem_names (column_types : List (String × ColType))
    (context_keyword : String) (c0 : String) (cs : List String)
    (table schema : String) (ts : List (String × String)) :
    (if factCastUsed column_types context_keyword (c0 :: cs) then "Cast" ++ table
      else "Select" ++ table) ∈
      scriptNames (factChain column_types context_keyword (c0 :: cs)
        ((table, schema) :: ts)) := by
  unfold factChain
  by_cases h1 : factCastUsed column_types context_keyword (c0 :: cs) = true <;>
    simp [h1, scriptNames, partName, List.map_append]

theorem script_sinkUpstreams_decomp (csv_columns fact_columns : List String)
    (dims : List (String × DimInfo)) (column_types : List (String × ColType))
    (fact_tables : List (String × String)) (context_keyword : String) :
    sinkUpstreams (generate_transform_dataflow_script csv_columns fact_columns dims
        column_types fact_tables context_keyword) =
      (dims.flatMap fun p =>
        sinkUpstreams (dimChain column_types context_keyword p.1 p.2)) ++
        sinkUpstreams (factChain column_types context_keyword fact_columns
          fact_tables) := by
  unfold generate_transform_dataflow_script
  rw [sinkUpstreams_append, sinkUpstreams_append, sinkUpstreams_flatMap]
  have hsrc : sinkUpstreams (if csv_columns.isEmpty then ([] : List ScriptPart)
      else [ScriptPart.source (csv_columns.map cleanCol)]) = [] := by
    split <;> rfl
  rw [hsrc, List.nil_append]

theorem script_names_sub_dims (csv_columns fact_columns : List String)
    (dims : List (String × DimInfo)) (column_types : List (String × ColType))
    (fact_tables : List (String × String)) (context_keyword : String)
    (p : String × DimInfo) (hp : p ∈ dims) (n : String)
    (hn : n ∈ scriptNames (dimChain column_types context_keyword p.1 p.2)) :
    n ∈ scriptNames (generate_transform_dataflow_script csv_columns fact_columns dims
      column_types fact_tables context_keyword) := by
  unfold generate_transform_dataflow_script
  rw [scriptNames_append, scriptNames_append]
  have hmem : n ∈ scriptNames (dims.flatMap fun q =>
      dimChain column_types context_keyword q.1 q.2) := by
    obtain ⟨part, hpart, rfl⟩ := List.mem_map.mp hn
    exact List.mem_map_of_mem _ (List.mem_flatMap.mpr ⟨p, hp, hpart⟩)
  simp only [List.mem_append]
  tauto

theorem script_names_sub_fact (csv_columns fact_columns : List String)
    (dims : List (String × DimInfo)) (column_types : List (String × ColType))
    (fact_tables : List (String × String)) (context_keyword : String) (n : String)
    (hn : n ∈ scriptNames (factChain column_types context_keyword fact_columns
      fact_tables)) :
    n ∈ scriptNames (generate_transform_dataflow_script csv_columns fact_columns dims
      column_types fact_tables context_keyword) := by
  unfold generate_transform_dataflow_script
  rw [scriptNames_append, scriptNames_append]
  simp only [List.mem_append]
  tauto

theorem script_sinkUpstreams_complete (csv_columns fact_columns : List String)
    (dims : List (String × DimInfo)) (column_types : List (String × ColType))
    (fact_tables : List (String × String)) (context_keyword : String) :
    ∀ up ∈ sinkUpstreams (generate_transform_dataflow_script csv_columns fact_columns
        dims column_types fact_tables context_keyword),
      up ∈ extract_transformations (scriptNames (generate_transform_dataflow_script
        csv_columns fact_columns dims column_types fact_tables context_keyword)) := by
  intro up hup
  rw [script_sinkUpstreams_decomp] at hup
  rcases List.mem_append.mp hup with h | h
  · obtain ⟨p, hp, hupp⟩ := List.mem_flatMap.mp h
    by_cases hskip : dimSkipped p.1 p.2.columns = true
    · rw [dimChain_eq_nil_of_skipped _ _ _ _ hskip] at hupp
      cases hupp
    · have hskip2 : dimSkipped p.1 p.2.columns = false := by simpa using hskip
      rw [dimChain_sinkUpstreams _ _ _ _ hskip2, List.mem_singleton] at hupp
      subst hupp
      have hmemnames := script_names_sub_dims csv_columns fact_columns dims
        column_types fact_tables context_keyword p hp _
        (dimChain_final_mem_names _ _ _ _ hskip2)
      rcases dimFinal_shape column_types context_keyword p.1 p.2.columns
        with hf | hf | hf <;> rw [hf] at hmemnames ⊢
      · exact extract_foldl_complete _ [] _ hmemnames (keep_cast p.1).1 (keep_cast p.1).2
      · exact extract_foldl_complete _ [] _ hmemnames (keep_derive p.1).1
          (keep_derive p.1).2
      · exact extract_foldl_complete _ [] _ hmemnames (keep_aggregate p.1).1
          (keep_aggregate p.1).2
  · rcases fact_columns with _ | ⟨c0, cs⟩
    · simp [factChain, sinkUpstreams] at h
    · rcases fact_tables with _ | ⟨⟨table, schema⟩, ts⟩
      · simp [factChain, sinkUpstreams] at h
      · rw [factChain_sinkUpstreams, List.mem_singleton] at h
        subst h
        have hmemnames := script_names_sub_fact csv_columns (c0 :: cs) dims
          column_types ((table, schema) :: ts) context_keyword _
          (factChain_final_mem_names column_types context_keyword c0 cs table
            schema ts)
        by_cases hcu : factCastUsed column_types context_keyword (c0 :: cs) = true
        · rw [if_pos hcu] at hmemnames ⊢
          exact extract_foldl_complete _ [] _ hmemnames (keep_cast table).1
            (keep_cast table).2
        · rw [if_neg hcu] at hmemnames ⊢
          exact extract_foldl_complete _ [] _ hmemnames (keep_select table).1
            (keep_select table).2

theorem script_sinkUpstreams_nodup (csv_columns fact_columns : List String)
    (dims : List (String × DimInfo)) (column_types : List (String × ColType))
    (fact_tables : List (String × String)) (context_keyword : String)
    (hnd : (dictKeys dims).Nodup)
    (hft : ∀ q ∈ fact_tables, q.1 ∉ dictKeys dims) :
    (sinkUpstreams (generate_transform_dataflow_script csv_columns fact_columns dims
      column_types fact_tables context_keyword)).Nodup := by
  rw [script_sinkUpstreams_decomp, List.nodup_append]
  refine ⟨?_, ?_, ?_⟩
  · rw [List.nodup_flatMap]
    constructor
    · intro p hp
      by_cases hskip : dimSkipped p.1 p.2.columns = true
      · rw [dimChain_eq_nil_of_skipped _ _ _ _ hskip]
        exact List.nodup_nil
      · rw [dimChain_sinkUpstreams _ _ _ _ (by simpa using hskip)]
        exact List.nodup_singleton _
    · have hpair : List.Pairwise (fun p q : String × DimInfo => p.1 ≠ q.1) dims := by
        have h2 := hnd
        rw [dictKeys] at h2
        exact List.pairwise_map.mp h2
      refine hpair.imp ?_
      intro p q hne u hu0 hu3
      have hu1 : u ∈ sinkUpstreams (dimChain column_types context_keyword p.1 p.2) :=
        hu0
      have hu2 : u ∈ sinkUpstreams (dimChain column_types context_keyword q.1 q.2) :=
        hu3
      by_cases hs1 : dimSkipped p.1 p.2.columns = true
      · rw [dimChain_eq_nil_of_skipped _ _ _ _ hs1] at hu1
        cases hu1
      · by_cases hs2 : dimSkipped q.1 q.2.columns = true
        · rw [dimChain_eq_nil_of_skipped _ _ _ _ hs2] at hu2
          cases hu2
        · rw [dimChain_sinkUpstreams _ _ _ _ (by simpa using hs1),
            List.mem_singleton] at hu1
          rw [dimChain_sinkUpstreams _ _ _ _ (by simpa using hs2),
            List.mem_singleton] at hu2
          exact hne (dimFinal_eq_imp column_types context_keyword
            (hu1.symm.trans hu2))
  · rcases fact_columns with _ | ⟨c0, cs⟩
    · exact List.nodup_nil
    · rcases fact_tables with _ | ⟨⟨table, schema⟩, ts⟩
      · exact List.nodup_nil
      · rw [factChain_sinkUpstreams]
        exact List.nodup_singleton _
  · intro u hu1 hu2
    obtain ⟨p, hp, hupp⟩ := List.mem_flatMap.mp hu1
    by_cases hs1 : dimSkipped p.1 p.2.columns = true
    · rw [dimChain_eq_nil_of_skipped _ _ _ _ hs1] at hupp
      cases hupp
    · rw [dimChain_sinkUpstreams _ _ _ _ (by simpa using hs1),
        List.mem_singleton] at hupp
      subst hupp
      rcases fact_columns with _ | ⟨c0, cs⟩
      · simp [factChain, sinkUpstreams] at hu2
      · rcases fact_tables with _ | ⟨⟨table, schema⟩, ts⟩
        · simp [factChain, sinkUpstreams] at hu2
        · rw [factChain_sinkUpstreams, List.mem_singleton] at hu2
          have htbl : table ∉ dictKeys dims :=
            hft (table, schema) (List.mem_cons_self _ _)
          have hpkey : p.1 ∈ dictKeys dims := List.mem_map_of_mem Prod.fst hp
          by_cases hcu : factCastUsed column_types context_keyword (c0 :: cs) = true
          · rw [if_pos hcu] at hu2
            rcases dimFinal_shape column_types context_keyword p.1 p.2.columns
              with hf | hf | hf <;> rw [hf] at hu2
            · exact htbl (append_tag_inj _ hu2 ▸ hpkey)
            · exact absurd hu2 (append_tag_ne rfl rfl (by decide) _ _)
            · exact absurd hu2 (append_tag_ne rfl rfl (by decide) _ _)
          · rw [if_neg hcu] at hu2
            rcases dimFinal_shape column_types context_keyword p.1 p.2.columns
              with hf | hf | hf <;> rw [hf] at hu2 <;>
              exact absurd hu2 (append_tag_ne rfl rfl (by decide) _ _)

theorem loadTransAt_head {s : List Char} (h : loadTransAt s = true) :
    ∃ c r, s = c :: r ∧ isPyWs c = false := by
  unfold loadTransAt at h
  cases s with
  | nil => simp [ciPrefix] at h
  | cons c r =>
    refine ⟨c, r, rfl, ?_⟩
    by_contra hws
    simp only [Bool.not_eq_false] at hws
    simp only [isPyWs, Bool.or_eq_true, decide_eq_true_eq] at hws
    have hcd : ¬ c.toLower = 't'.toLower := by
      rcases hws with ((((rfl | rfl) | rfl) | rfl) | rfl) | rfl <;> decide
    rw [show ("transformation(name=".data)
      = 't' :: "ransformation(name=".data from rfl] at h
    simp only [ciPrefix, if_neg hcd] at h
    exact absurd h (by decide)

theorem load_transformation_flagged (pySyntaxError : Option String)
    (sqlCastTypes : List String) (aiVerdict : ValidationResult) (code : String)
    (h : hasLoadTrans code.data = true) :
    (validate_generated_code true pySyntaxError sqlCastTypes aiVerdict code).is_valid
        = false ∧
      loadInTransIssue ∈
        (validate_generated_code true pySyntaxError sqlCastTypes aiVerdict
          code).issues := by
  have hstrip : (pyStrip code.data).isEmpty = false := by
    obtain ⟨s, hs, hp⟩ := anySuffix_exists h
    obtain ⟨c, r, hsr, hws⟩ := loadTransAt_head hp
    exact pyStrip_ne_nil_of_mem (hs.subset (hsr ▸ List.mem_cons_self c r)) hws
  have hm : loadInTransIssue ∈ preCheckIssues pySyntaxError sqlCastTypes code.data := by
    simp [preCheckIssues, loadIssues, h]
  have hne := isEmpty_false_of_mem hm
  have hresult : validate_generated_code true pySyntaxError sqlCastTypes aiVerdict code
      = ⟨false, preCheckIssues pySyntaxError sqlCastTypes code.data⟩ := by
    unfold validate_generated_code
    simp only [hstrip, hne, Bool.not_true, Bool.not_false, Bool.false_eq_true,
      if_false, if_true]
  rw [hresult]
  exact ⟨rfl, hm⟩

/-- C9: for every generated dataflow script with distinct dimension
names, none shared by a fact table: the extracted transformation names
never start with `Load` and never name the source/staging nodes, each
appears exactly once, they are disjoint from the script's sink names, and
every sink's upstream reference names an extracted transformation, each
sink referencing a distinct upstream (so every sink has its upstream
transformation referenced exactly once); moreover the validator flags
any code that lists a `Load*` name as a `Transformation(...)` entry
(pre-check 5): such code gets a failing verdict containing the
Load-in-transformations issue. -/
theorem transformations_and_sinks_disjoint (csv_columns fact_columns : List String)
    (dims : List (String × DimInfo)) (column_types : List (String × ColType))
    (fact_tables : List (String × String)) (context_keyword : String)
    (hnd : (dictKeys dims).Nodup)
    (hft : ∀ q ∈ fact_tables, q.1 ∉ dictKeys dims) :
    (∀ n ∈ extract_transformations (scriptNames (generate_transform_dataflow_script
        csv_columns fact_columns dims column_types fact_tables context_keyword)),
      ("Load".data.isPrefixOf n.data) = false ∧
        n ∉ ["SourceCSV", "StagingSink", "StagingSource"]) ∧
      (extract_transformations (scriptNames (generate_transform_dataflow_script
        csv_columns fact_columns dims column_types fact_tables
        context_keyword))).Nodup ∧
      (∀ n ∈ extract_transformations (scriptNames (generate_transform_dataflow_script
          csv_columns fact_columns dims column_types fact_tables context_keyword)),
        ∀ t up, ScriptPart.sinkPart t up ∈ generate_transform_dataflow_script
          csv_columns fact_columns dims column_types fact_tables context_keyword →
          n ≠ "Load" ++ t) ∧
      (∀ up ∈ sinkUpstreams (generate_transform_dataflow_script csv_columns
          fact_columns dims column_types fact_tables context_keyword),
        up ∈ extract_transformations (scriptNames (generate_transform_dataflow_script
          csv_columns fact_columns dims column_types fact_tables context_keyword))) ∧
      (sinkUpstreams (generate_transform_dataflow_script csv_columns fact_columns
        dims column_types fact_tables context_keyword)).Nodup ∧
      (∀ (pySyntaxError : Option String) (sqlCastTypes : List String)
          (aiVerdict : ValidationResult) (code : String),
        hasLoadTrans code.data = true →
          (validate_generated_code true pySyntaxError sqlCastTypes aiVerdict
              code).is_valid = false ∧
            loadInTransIssue ∈ (validate_generated_code true pySyntaxError
              sqlCastTypes aiVerdict code).issues) := by
  refine ⟨?_, ?_, ?_, ?_, ?_, ?_⟩
  · intro n hn
    rcases extract_foldl_mem _ _ _ hn with h | h
    · cases h
    · exact ⟨h.2.1, not_mem_of_contains_eq_false h.2.2⟩
  · exact extract_foldl_nodup _ [] List.nodup_nil
  · intro n hn t up hsink heq
    rcases extract_foldl_mem _ _ _ hn with h | h
    · cases h
    · have h2 := h.2.1
      rw [heq] at h2
      rw [load_prefix_append t] at h2
      cases h2
  · exact script_sinkUpstreams_complete csv_columns fact_columns dims column_types
      fact_tables context_keyword
  · exact script_sinkUpstreams_nodup csv_columns fact_columns dims column_types
      fact_tables context_keyword hnd hft
  · intro pySyntaxError sqlCastTypes aiVerdict code h
    exact load_transformation_flagged pySyntaxError sqlCastTypes aiVerdict code h

/-- Witness for C9 at a concrete split. -/
theorem c9_witness :
    (dictKeys [("DimPatient",
        (⟨["Patient_ID", "Patient_Name"], "Patient_ID"⟩ : DimInfo))]).Nodup ∧
      (∀ q ∈ ([("FactVisit", "dbo")] : List (String × String)),
        q.1 ∉ dictKeys [("DimPatient",
          (⟨["Patient_ID", "Patient_Name"], "Patient_ID"⟩ : DimInfo))]) ∧
      (∀ up ∈ sinkUpstreams (generate_transform_dataflow_script ["A"] ["Amount"]
          [("DimPatient", ⟨["Patient_ID", "Patient_Name"], "Patient_ID"⟩)] []
          [("FactVisit", "dbo")] "Data"),
        up ∈ extract_transformations (scriptNames
          (generate_transform_dataflow_script ["A"] ["Amount"]
            [("DimPatient", ⟨["Patient_ID", "Patient_Name"], "Patient_ID"⟩)] []
            [("FactVisit", "dbo")] "Data"))) ∧
      (hasLoadTrans
          ("transformations=[Transformation(name='LoadDimPatient')]" : String).data
        = true ∧
        (validate_generated_code true none [] ⟨true, []⟩
            ("transformations=[Transformation(name='LoadDimPatient')]")).is_valid
          = false) :=
  ⟨by decide, by decide,
    (transformations_and_sinks_disjoint ["A"] ["Amount"]
      [("DimPatient", ⟨["Patient_ID", "Patient_Name"], "Patient_ID"⟩)] []
      [("FactVisit", "dbo")] "Data" (by decide) (by decide)).2.2.2.1,
    by decide,
    ((transformations_and_sinks_disjoint ["A"] ["Amount"]
      [("DimPatient", ⟨["Patient_ID", "Patient_Name"], "Patient_ID"⟩)] []
      [("FactVisit", "dbo")] "Data" (by decide) (by decide)).2.2.2.2.2
      none [] ⟨true, []⟩
      ("transformations=[Transformation(name='LoadDimPatient')]")
      (by decide)).1⟩

end DataMigration
